import Mathlib

/-!
# Verification of the heibot/censor content-moderation engine

This file is a shallow embedding, in Lean 4, of the parts of the
heibot/censor Go repository that the specification's testable properties
talk about, together with proofs (or refutations) of those properties.

Modelling conventions, used throughout:

* Go byte strings whose byte offsets and lengths matter (text-merge,
  violation location) are modelled as `GoStr := List Char`; one list
  element stands for one byte, `List.length` for Go's `len`, list
  append for concatenation and `drop`/`take` for slicing.
* Go strings that are only compared for equality (identifiers,
  provider names, field names, policies) are modelled as `String`.
* Database row identifiers produced by the store's id generator are
  modelled as `Nat` (the Go empty string id is modelled as `0`).
* `float64` confidence values are modelled as `ℚ`; the only float
  operations performed by the code on them (comparison, one division
  of small non-negative integers, multiplication by the constants
  `0.85`/`0.95`, capping at `1`) are exact in this range, so rational
  arithmetic is a faithful model.
* Go `map` values are modelled as association lists with
  overwrite-on-assignment (`setAssoc`) and first-match lookup.
* `time.Time` timestamps (`created_at`/`updated_at` columns) are not
  part of the modelled store state: they are wall-clock metadata that
  no claim mentions.
* Provider network calls and the surrounding pipeline executor are
  I/O; where a claim is about the client logic around the pipeline
  (`Client.Submit` and friends) the pipeline is abstracted as an
  oracle function `Resource → Except String PipelineResult`, exactly
  the shape of `pipelineExecutor.execute`'s observable behaviour.
-/

namespace Censor

/-- Go byte strings, one list element per byte. -/
abbrev GoStr := List Char

/-- `censor.Decision` from `types.go` (`pending/pass/review/block/error`).
The Go type is a string type; only these five values are ever written by
the engine, so an inductive with five constructors is a faithful model. -/
inductive Decision where
  | pending
  | pass
  | review
  | block
  | error
  deriving DecidableEq, Repr

/-- `decisionSeverity` from `client/pipeline.go` (also duplicated in
`hooks`): pass 0, pending 1, review 2, block 3, error 4. -/
def decisionSeverity : Decision → Nat
  | Decision.pass => 0
  | Decision.pending => 1
  | Decision.review => 2
  | Decision.block => 3
  | Decision.error => 4

/-- One iteration of the aggregation loop in `Client.aggregateBizDecision`
(`client.go`): a pending child clears `allComplete`, any other child
replaces the running decision when strictly more severe. -/
def aggregateStep (acc : Decision × Bool) (d : Decision) : Decision × Bool :=
  if d = Decision.pending then (acc.1, false)
  else if decisionSeverity acc.1 < decisionSeverity d then (d, acc.2)
  else acc

/-- The whole aggregation loop of `Client.aggregateBizDecision`, folded
over the child decisions with the initial accumulator
`(DecisionPass, allComplete = true)`. -/
def aggregateScan (ds : List Decision) : Decision × Bool :=
  ds.foldl aggregateStep (Decision.pass, true)

/-- The decision computed by `Client.aggregateBizDecision` from the list
of child `ResourceReview` decisions: the scanned maximum, demoted to
`pending` when not all children are complete. -/
def aggregateDecision (ds : List Decision) : Decision :=
  if (aggregateScan ds).2 then (aggregateScan ds).1 else Decision.pending

/-! ## Text-merge engine (`utils/textmerge.go`) -/
/-- `utils.PartIndex`: byte-offset range of one part inside the merged
text. Go's field `End` is a Lean keyword, so it is called `stop` here. -/
structure PartIndex where
  start : Nat
  stop : Nat
  deriving DecidableEq, Repr

/-- `utils.MergedText`. -/
structure MergedText where
  merged : GoStr
  parts : List GoStr
  index : List PartIndex
  deriving DecidableEq, Repr

/-- `censor.TextMergeStrategy`. -/
structure TextMergeStrategy where
  maxLen : Nat
  separator : GoStr
  deriving DecidableEq, Repr

/-- The total-length computation of `MergeTexts`: every part's length
plus one separator length before every part but the first. -/
def totalLenTail (sep : GoStr) : List GoStr → Nat
  | [] => 0
  | p :: ps => sep.length + p.length + totalLenTail sep ps

/-- Total length of a part list with separators, as summed by the loop
at the top of `utils.MergeTexts`. -/
def totalLen (sep : GoStr) : List GoStr → Nat
  | [] => 0
  | p :: ps => p.length + totalLenTail sep ps

/-- The builder loop of `utils.MergeTexts` (full-merge case) for every
part after the first: each iteration appends the separator, records the
part's `[start, end)` offsets, then appends the part. `pos` is the
running length of what has been built so far. -/
def mergeTail (sep : GoStr) (pos : Nat) : List GoStr → GoStr × List PartIndex
  | [] => ([], [])
  | p :: ps =>
    (sep ++ p ++ (mergeTail sep (pos + sep.length + p.length) ps).1,
      ⟨pos + sep.length, pos + sep.length + p.length⟩ ::
        (mergeTail sep (pos + sep.length + p.length) ps).2)

/-- The whole builder loop of `utils.MergeTexts` (full-merge case): the
first part is written without a leading separator at offset 0. -/
def mergeAllGo (sep : GoStr) : List GoStr → GoStr × List PartIndex
  | [] => ([], [])
  | p :: ps =>
    (p ++ (mergeTail sep p.length ps).1, ⟨0, p.length⟩ :: (mergeTail sep p.length ps).2)

/-- The loop of `utils.mergePartial` for every part after the first:
a part whose addition (separator included) would push the running length
over `maxLen` breaks the loop; otherwise separator and part are
appended, the index recorded, and the part added to `includedParts`.
The third component is Go's `includedParts` tail. -/
def mergeCappedTail (sep : GoStr) (maxLen pos : Nat) :
    List GoStr → GoStr × List PartIndex × List GoStr
  | [] => ([], [], [])
  | p :: ps =>
    if pos + (p.length + sep.length) > maxLen then ([], [], [])
    else
      (sep ++ p ++ (mergeCappedTail sep maxLen (pos + sep.length + p.length) ps).1,
        ⟨pos + sep.length, pos + sep.length + p.length⟩ ::
          (mergeCappedTail sep maxLen (pos + sep.length + p.length) ps).2.1,
        p :: (mergeCappedTail sep maxLen (pos + sep.length + p.length) ps).2.2)

/-- `utils.mergePartial`: includes parts greedily while they fit, then
refuses (`ok = false`, zero-value `MergedText`) when fewer than two
parts were included. -/
def mergeCapped (sep : GoStr) (maxLen : Nat) (parts : List GoStr) : MergedText × Bool :=
  match parts with
  | [] => (⟨[], [], []⟩, false)
  | p :: ps =>
    if p.length > maxLen then (⟨[], [], []⟩, false)
    else
      if (p :: (mergeCappedTail sep maxLen p.length ps).2.2).length < 2 then
        (⟨[], [], []⟩, false)
      else
        (⟨p ++ (mergeCappedTail sep maxLen p.length ps).1,
            p :: (mergeCappedTail sep maxLen p.length ps).2.2,
            ⟨0, p.length⟩ :: (mergeCappedTail sep maxLen p.length ps).2.1⟩, true)

/-- `utils.MergeTexts`: empty input refuses, a single part is returned
verbatim with a trivial index, multiple parts are merged fully when the
total length fits and partially (`mergeCapped`, Go `mergePartial`)
otherwise. -/
def MergeTexts (parts : List GoStr) (strategy : TextMergeStrategy) : MergedText × Bool :=
  match parts with
  | [] => (⟨[], [], []⟩, false)
  | [p] => (⟨p, [p], [⟨0, p.length⟩]⟩, true)
  | p1 :: p2 :: rest =>
    if totalLen strategy.separator (p1 :: p2 :: rest) > strategy.maxLen then
      mergeCapped strategy.separator strategy.maxLen (p1 :: p2 :: rest)
    else
      (⟨(mergeAllGo strategy.separator (p1 :: p2 :: rest)).1, p1 :: p2 :: rest,
          (mergeAllGo strategy.separator (p1 :: p2 :: rest)).2⟩, true)

/-- `utils.SplitMergedText`: re-slices the merged string at each
recorded index; an index reaching past the end yields the zero-value
empty string. -/
def SplitMergedText (mt : MergedText) : List GoStr :=
  mt.index.map (fun idx =>
    if idx.stop ≤ mt.merged.length then
      (mt.merged.drop idx.start).take (idx.stop - idx.start)
    else [])

/-- The spec's description of the over-budget behaviour (§4.2), stated
as its own definition to compare with the code: include parts
left-to-right while the running merged length stays within budget, and
stop at the first part that would overflow. This is the spec side of
the C6 comparison; `mergeCapped` above is the code side. -/
def specGreedyAux (sep : GoStr) (maxLen pos : Nat) : List GoStr → List GoStr
  | [] => []
  | p :: ps =>
    if pos + sep.length + p.length > maxLen then []
    else p :: specGreedyAux sep maxLen (pos + sep.length + p.length) ps

/-- Spec-side greedy inclusion, first part without separator. -/
def specGreedy (sep : GoStr) (maxLen : Nat) : List GoStr → List GoStr
  | [] => []
  | p :: ps =>
    if p.length > maxLen then [] else p :: specGreedyAux sep maxLen p.length ps

/-! ## Violation locator (`client/fields.go`, duplicated in `client/batch.go`)

The Go repository contains two textually identical copies of the
two-strategy locator: `locateByPosition`/`locateByKeyword` over
`FieldInput` (keyed by field name) in fields.go and
`locateBatchByPosition`/`locateBatchByKeyword` over `BatchItem` (keyed
by `BizID`) in batch.go. They are embedded once, generically over the
key and text projections, and instantiated twice. -/
/-- `censor.Reason.Raw` (`map[string]any`), restricted to the entries
the locator inspects, with a failed type assertion modelled as `none` /
the empty list.  `aliyunStart`/`aliyunEnd` model
`positions[0].startPos/endPos`, `flatStart`/`flatEnd` model
`start_position`/`end_position`; the four keyword lists model the
string entries of `keywords`, `keywordTexts`, `segments[].segment` and
`Keywords`. -/
structure RawData where
  aliyunStart : Option Int
  aliyunEnd : Option Int
  flatStart : Option Int
  flatEnd : Option Int
  keywords : List GoStr
  keywordTexts : List GoStr
  segments : List GoStr
  tencentKeywords : List GoStr
  deriving DecidableEq, Repr

/-- `censor.Reason`. -/
structure Reason where
  code : String
  message : String
  provider : String
  hitTags : List GoStr
  raw : Option RawData
  deriving DecidableEq, Repr

/-- The position-extraction prelude of `locateByPosition`: the Aliyun
shape is tried first (setting `hasPosition` only when both `startPos`
and `endPos` are present), then the flat shape, whose `start_position`
overwrites the start even when `end_position` is absent — exactly the
mutation order of the Go code. Returns `(startPos, endPos,
hasPosition)`. -/
def extractPosition (raw : RawData) : Int × Int × Bool :=
  let a : Int × Int × Bool :=
    match raw.aliyunStart, raw.aliyunEnd with
    | some st, some en => (st, en, true)
    | some st, none => (st, 0, false)
    | none, _ => (0, 0, false)
  match raw.flatStart, raw.flatEnd with
  | some st, some en => (st, en, true)
  | some st, none => (st, a.2.1, a.2.2)
  | none, _ => a

/-- `extractKeywords` from fields.go: `HitTags` first, then the raw
provider-specific lists in source order. -/
def extractKeywords (reason : Reason) : List GoStr :=
  reason.hitTags ++
    (match reason.raw with
     | none => []
     | some raw => raw.keywords ++ raw.keywordTexts ++ raw.segments ++ raw.tencentKeywords)

/-- Go `map[string]PartIndex` lookup with the zero value for a missing
key. -/
def lookupIndexD : List (String × PartIndex) → String → PartIndex
  | [], _ => ⟨0, 0⟩
  | kv :: rest, k => if kv.1 == k then kv.2 else lookupIndexD rest k

/-- Go `map[string]bool` used as a set: adding a key that is already
present is a no-op. -/
def insertOnce (l : List String) (k : String) : List String :=
  if k ∈ l then l else l ++ [k]

/-- Go `map[string]int` increment `m[k]++` (missing key counts from the
zero value). -/
def bumpCount : List (String × Nat) → String → List (String × Nat)
  | [], k => [(k, 1)]
  | kv :: rest, k => if kv.1 == k then (kv.1, kv.2 + 1) :: rest else kv :: bumpCount rest k

/-- `strings.ToLower`, byte-list model. -/
def toLowerGo (s : GoStr) : GoStr := s.map Char.toLower

def startsWithG : GoStr → GoStr → Bool
  | _, [] => true
  | [], _ :: _ => false
  | c :: s, d :: p => c == d && startsWithG s p

/-- `strings.Contains` (naive substring search; Go's `Contains` is
true for the empty needle). -/
def containsSub : GoStr → GoStr → Bool
  | [], p => startsWithG [] p
  | c :: s, p => startsWithG (c :: s) p || containsSub s p

/-- `client.BlockAction`; `unspecified` models the Go zero string. -/
inductive BlockAction where
  | passThrough
  | replace
  | hide
  | reject
  | unspecified
  deriving DecidableEq, Repr

/-- `client.FieldInput`. -/
structure FieldInput where
  field : String
  text : GoStr
  onBlock : BlockAction
  replaceWith : GoStr
  deriving DecidableEq, Repr

/-- `client.BatchItem` (the `Extra` metadata map carries no logic and
is omitted). -/
structure BatchItem where
  bizID : String
  submitterID : String
  text : GoStr
  onBlock : BlockAction
  deriving DecidableEq, Repr

/-- The body of the inner `for _, field := range fields` loop of
`locateByPosition`: an entry whose offset range fully contains the span
is added to the found set. -/
def posEntryStep (keyOf : α → String) (index : List (String × PartIndex))
    (startPos endPos : Int) (acc2 : List String) (entry : α) : List String :=
  if ((lookupIndexD index (keyOf entry)).start : Int) ≤ startPos ∧
      endPos ≤ ((lookupIndexD index (keyOf entry)).stop : Int) then
    insertOnce acc2 (keyOf entry)
  else acc2

/-- The body of the outer `for _, reason := range reasons` loop of
`locateByPosition`: reasons without raw data or without a complete
position span are skipped. -/
def posReasonStep (keyOf : α → String) (entries : List α)
    (index : List (String × PartIndex)) (acc : List String) (reason : Reason) :
    List String :=
  match reason.raw with
  | none => acc
  | some raw =>
    if (extractPosition raw).2.2 = true then
      entries.foldl
        (posEntryStep keyOf index (extractPosition raw).1 (extractPosition raw).2.1) acc
    else acc

/-- The `foundFields` set computed by `locateByPosition`. -/
def posFound (keyOf : α → String) (entries : List α)
    (index : List (String × PartIndex)) (reasons : List Reason) : List String :=
  reasons.foldl (posReasonStep keyOf entries index) []

/-- `locateByPosition` / `locateBatchByPosition`, generic over the key
projection: any hit yields confidence exactly 0.95, otherwise 0. -/
def locatePositionCore (keyOf : α → String) (entries : List α)
    (index : List (String × PartIndex)) (reasons : List Reason) : List String × ℚ :=
  if posFound keyOf entries index reasons = [] then ([], 0)
  else (posFound keyOf entries index reasons, 95 / 100)

/-- The keyword-tally loops of `locateByKeyword`: the first component is
Go's `foundFields` match-count map, the second Go's `totalKeywords`.
A non-empty keyword bumps the total and the match count of every entry
whose lowercased text contains the lowercased keyword. -/
def keywordScan (keyOf : α → String) (textOf : α → GoStr) (entries : List α)
    (reasons : List Reason) : List (String × Nat) × Nat :=
  reasons.foldl (fun (acc : List (String × Nat) × Nat) reason =>
    (extractKeywords reason).foldl (fun acc2 keyword =>
      if keyword = ([] : GoStr) then acc2
      else
        (entries.foldl (fun m entry =>
          if containsSub (toLowerGo (textOf entry)) (toLowerGo keyword) then
            bumpCount m (keyOf entry)
          else m) acc2.1,
          acc2.2 + 1)) acc) ([], 0)

/-- The `maxMatches` loop of `locateByKeyword`. -/
def maxMatches (m : List (String × Nat)) : Nat :=
  m.foldl (fun acc kv => if kv.2 > acc then kv.2 else acc) 0

/-- `locateByKeyword` / `locateBatchByKeyword`, generic over key and
text projections: the confidence is
`min(maxMatches / totalKeywords, 1) * 0.85` when anything matched. -/
def locateKeywordCore (keyOf : α → String) (textOf : α → GoStr) (entries : List α)
    (reasons : List Reason) : List String × ℚ :=
  if (keywordScan keyOf textOf entries reasons).1 ≠ [] ∧
      (keywordScan keyOf textOf entries reasons).2 > 0 then
    ((keywordScan keyOf textOf entries reasons).1.map (fun kv => kv.1),
      (if ((maxMatches (keywordScan keyOf textOf entries reasons).1 : Nat) : ℚ) /
            ((keywordScan keyOf textOf entries reasons).2 : ℚ) > 1 then 1
        else ((maxMatches (keywordScan keyOf textOf entries reasons).1 : Nat) : ℚ) /
            ((keywordScan keyOf textOf entries reasons).2 : ℚ)) * (85 / 100))
  else ([], 0)

/-- `locateViolationFields` / `locateBatchViolations`: position strategy
first, keyword strategy second, empty result otherwise. -/
def locateCascadeCore (keyOf : α → String) (textOf : α → GoStr) (entries : List α)
    (index : List (String × PartIndex)) (reasons : List Reason) :
    List String × ℚ × String :=
  if reasons = [] then ([], 0, "")
  else
    if (locatePositionCore keyOf entries index reasons).2 > 0 then
      ((locatePositionCore keyOf entries index reasons).1,
        (locatePositionCore keyOf entries index reasons).2, "position")
    else if (locateKeywordCore keyOf textOf entries reasons).2 > 0 then
      ((locateKeywordCore keyOf textOf entries reasons).1,
        (locateKeywordCore keyOf textOf entries reasons).2, "keyword")
    else ([], 0, "")

/-- `locateByPosition` from fields.go. -/
def locateByPosition (fields : List FieldInput) (fieldIndex : List (String × PartIndex))
    (reasons : List Reason) : List String × ℚ :=
  locatePositionCore (fun f => f.field) fields fieldIndex reasons

/-- `locateByKeyword` from fields.go. -/
def locateByKeyword (fields : List FieldInput) (reasons : List Reason) : List String × ℚ :=
  locateKeywordCore (fun f => f.field) (fun f => f.text) fields reasons

/-- `locateViolationFields` from fields.go. -/
def locateViolationFields (fields : List FieldInput)
    (fieldIndex : List (String × PartIndex)) (reasons : List Reason) :
    List String × ℚ × String :=
  locateCascadeCore (fun f => f.field) (fun f => f.text) fields fieldIndex reasons

/-- `locateBatchByPosition` from batch.go. -/
def locateBatchByPosition (items : List BatchItem) (itemIndex : List (String × PartIndex))
    (reasons : List Reason) : List String × ℚ :=
  locatePositionCore (fun it => it.bizID) items itemIndex reasons

/-- `locateBatchByKeyword` from batch.go. -/
def locateBatchByKeyword (items : List BatchItem) (reasons : List Reason) :
    List String × ℚ :=
  locateKeywordCore (fun it => it.bizID) (fun it => it.text) items reasons

/-- `locateBatchViolations` from batch.go. -/
def locateBatchViolations (items : List BatchItem) (itemIndex : List (String × PartIndex))
    (reasons : List Reason) : List String × ℚ × String :=
  locateCascadeCore (fun it => it.bizID) (fun it => it.text) items itemIndex reasons

/-! ## Batch submission orchestrator (`client/batch.go`)

The batch layer calls `c.Submit` once for the merged text and (in
fallback mode) once per item.  `Client.Submit` performs provider and
store I/O, so the batch layer is verified against an oracle
`SubmitOracle` standing for it: given the submitted resource ID and
content text, the oracle returns the immediate outcome recorded under
that resource ID and the `PendingAsync` flag — exactly the two pieces
of `SubmitResult` the batch layer reads. -/
/-- `censor.FinalOutcome`. -/
structure FinalOutcome where
  decision : Decision
  replacePolicy : String
  replaceValue : String
  reasons : List Reason
  riskLevel : Nat
  deriving DecidableEq, Repr

/-- What the batch layer observes of one `Client.Submit` call. -/
structure SubmitView where
  immediate : Option FinalOutcome
  pendingAsync : Bool
  deriving DecidableEq, Repr

/-- Oracle abstraction of `Client.Submit` as invoked by the batch
layer, keyed by the submitted resource ID and content text. -/
def SubmitOracle : Type := String → GoStr → Except String SubmitView

/-- `client.BatchItemResult`. -/
structure BatchItemResult where
  bizID : String
  decision : Decision
  reasons : List Reason
  blocked : Bool
  locatedBy : String
  confidence : ℚ
  deriving DecidableEq, Repr

/-- `client.SubmitBatchInput` (scenes carry no batch-layer logic and
are absorbed into the oracle). -/
structure SubmitBatchInput where
  bizType : String
  items : List BatchItem
  traceID : String
  fallbackThreshold : ℚ
  disableFallback : Bool
  maxMergeCount : Nat

/-- `client.SubmitBatchResult`. -/
structure SubmitBatchResult where
  results : List (String × BatchItemResult)
  overallDecision : Decision
  blockedCount : Nat
  passedCount : Nat
  usedFallback : Bool
  pendingAsync : Bool
  deriving DecidableEq, Repr

/-- Go map assignment `m[k] = v`: overwrite the existing entry or
append a new one. -/
def setAssoc : List (String × β) → String → β → List (String × β)
  | [], k, v => [(k, v)]
  | kv :: rest, k, v => if kv.1 == k then (k, v) :: rest else kv :: setAssoc rest k v

/-- Go map lookup `m[k]` returning `none` for a missing key. -/
def lookupAssoc : List (String × β) → String → Option β
  | [], _ => none
  | kv :: rest, k => if kv.1 == k then some kv.2 else lookupAssoc rest k

/-- The separator literal `"\n---\n"` of `mergeBatchItems`. -/
def batchSeparator : GoStr := ['\n', '-', '-', '-', '\n']

/-- `strings.Join`. -/
def joinSep (sep : GoStr) : List GoStr → GoStr
  | [] => []
  | [p] => p
  | p :: q :: rest => p ++ sep ++ joinSep sep (q :: rest)

/-- Accumulator of the `mergeBatchItems` loop: collected parts,
indices, the per-item index map, the running byte position, and
whether the next part is the first. -/
structure MergeAcc where
  parts : List GoStr
  indices : List PartIndex
  itemIndex : List (String × PartIndex)
  pos : Nat
  isFirst : Bool

/-- `mergeBatchItems` from batch.go: concatenates the item texts with
`"\n---\n"`, recording each item's `[start, end)` offsets in the merged
string and an index map keyed by `BizID`. -/
def mergeBatchItems (items : List BatchItem) : MergedText × List (String × PartIndex) :=
  let acc := items.foldl
    (fun (acc : MergeAcc) item =>
      let pos := if acc.isFirst then acc.pos else acc.pos + batchSeparator.length
      { parts := acc.parts ++ [item.text]
        indices := acc.indices ++ [⟨pos, pos + item.text.length⟩]
        itemIndex := setAssoc acc.itemIndex item.bizID ⟨pos, pos + item.text.length⟩
        pos := pos + item.text.length
        isFirst := false })
    ⟨[], [], [], 0, true⟩
  (⟨joinSep batchSeparator acc.parts, acc.parts, acc.indices⟩, acc.itemIndex)

/-- `Client.buildBatchResultFromLocation`: located items inherit the
merged outcome and are blocked, all other items pass; every result is
tagged with the locator method and confidence 1. -/
def buildBatchResultFromLocation (input : SubmitBatchInput) (locatedItems : List String)
    (outcome : FinalOutcome) (locateMethod : String) : SubmitBatchResult :=
  input.items.foldl
    (fun res item =>
      if locatedItems.contains item.bizID then
        { res with
          results := setAssoc res.results item.bizID
            ⟨item.bizID, outcome.decision, outcome.reasons, true, locateMethod, 1⟩
          blockedCount := res.blockedCount + 1 }
      else
        { res with
          results := setAssoc res.results item.bizID
            ⟨item.bizID, Decision.pass, [], false, locateMethod, 1⟩
          passedCount := res.passedCount + 1 })
    ⟨[], outcome.decision, 0, 0, false, false⟩

/-- `Client.buildConservativeBatchResult`: every item inherits the
merged outcome, is blocked, and is tagged `"conservative"`. -/
def buildConservativeBatchResult (input : SubmitBatchInput) (outcome : FinalOutcome) :
    SubmitBatchResult :=
  { results := input.items.foldl
      (fun m item => setAssoc m item.bizID
        ⟨item.bizID, outcome.decision, outcome.reasons, true, "conservative", 1⟩) []
    overallDecision := outcome.decision
    blockedCount := input.items.length
    passedCount := 0
    usedFallback := false
    pendingAsync := false }

/-- `Client.submitBatchFallback`: every item is re-submitted through
the plain Submit path; a submission error makes the item inherit the
merged outcome tagged `"fallback_error"`, an immediate outcome is taken
as-is, a missing immediate outcome leaves the item pending. -/
def submitBatchFallback (submit : SubmitOracle) (input : SubmitBatchInput)
    (mergedOutcome : FinalOutcome) : Except String SubmitBatchResult :=
  Except.ok (input.items.foldl
    (fun res item =>
      match submit item.bizID item.text with
      | Except.error _ =>
        { res with
          results := setAssoc res.results item.bizID
            ⟨item.bizID, mergedOutcome.decision, mergedOutcome.reasons, true,
              "fallback_error", 0⟩
          blockedCount := res.blockedCount + 1
          overallDecision :=
            if decisionSeverity res.overallDecision < decisionSeverity mergedOutcome.decision
            then mergedOutcome.decision else res.overallDecision }
      | Except.ok sv =>
        match sv.immediate with
        | some itemOutcome =>
          if itemOutcome.decision = Decision.block ∨ itemOutcome.decision = Decision.review then
            { res with
              results := setAssoc res.results item.bizID
                ⟨item.bizID, itemOutcome.decision, itemOutcome.reasons, true, "fallback", 1⟩
              blockedCount := res.blockedCount + 1
              overallDecision :=
                if decisionSeverity res.overallDecision < decisionSeverity itemOutcome.decision
                then itemOutcome.decision else res.overallDecision }
          else
            { res with
              results := setAssoc res.results item.bizID
                ⟨item.bizID, itemOutcome.decision, itemOutcome.reasons, false, "fallback", 1⟩
              passedCount := res.passedCount + 1
              overallDecision :=
                if decisionSeverity res.overallDecision < decisionSeverity itemOutcome.decision
                then itemOutcome.decision else res.overallDecision }
        | none =>
          { res with
            results := setAssoc res.results item.bizID
              ⟨item.bizID, Decision.pending, [], false, "fallback", 0⟩
            pendingAsync := true
            overallDecision :=
              if decisionSeverity res.overallDecision < decisionSeverity Decision.pending
              then Decision.pending else res.overallDecision })
    ⟨[], Decision.pass, 0, 0, true, false⟩)

/-- `Client.submitBatchMerged`: submit the merged text once; pass makes
every item pass, a missing immediate result makes every item pending,
block/review runs the locator and then either trusts it (confidence at
or above the threshold with a non-empty located set), goes conservative
(`DisableFallback`), or re-submits per item. -/
def submitBatchMerged (submit : SubmitOracle) (input : SubmitBatchInput) :
    Except String SubmitBatchResult :=
  match submit "_batch_" (mergeBatchItems input.items).1.merged with
  | Except.error e => Except.error e
  | Except.ok sv =>
    match sv.immediate with
    | some outcome =>
      if outcome.decision = Decision.pass then
        Except.ok
          { results := input.items.foldl (fun m item =>
              setAssoc m item.bizID ⟨item.bizID, Decision.pass, [], false, "", 1⟩) []
            overallDecision := Decision.pass
            blockedCount := 0
            passedCount := input.items.length
            usedFallback := false
            pendingAsync := sv.pendingAsync }
      else
        if (locateBatchViolations input.items (mergeBatchItems input.items).2
              outcome.reasons).2.1 ≥ input.fallbackThreshold ∧
            (locateBatchViolations input.items (mergeBatchItems input.items).2
              outcome.reasons).1 ≠ [] then
          Except.ok (buildBatchResultFromLocation input
            (locateBatchViolations input.items (mergeBatchItems input.items).2
              outcome.reasons).1
            outcome
            (locateBatchViolations input.items (mergeBatchItems input.items).2
              outcome.reasons).2.2)
        else if input.disableFallback then
          Except.ok (buildConservativeBatchResult input outcome)
        else
          submitBatchFallback submit input outcome
    | none =>
      Except.ok
        { results := input.items.foldl (fun m item =>
            setAssoc m item.bizID ⟨item.bizID, Decision.pending, [], false, "", 0⟩) []
          overallDecision := Decision.pending
          blockedCount := 0
          passedCount := 0
          usedFallback := false
          pendingAsync := sv.pendingAsync }

/-- `Client.submitSingleBatchItem`: the one-item bypass of the merge
logic. -/
def submitSingleBatchItem (submit : SubmitOracle) (item : BatchItem) :
    Except String SubmitBatchResult :=
  match submit item.bizID item.text with
  | Except.error e => Except.error e
  | Except.ok sv =>
    match sv.immediate with
    | some outcome =>
      if outcome.decision = Decision.block ∨ outcome.decision = Decision.review then
        Except.ok
          { results := [(item.bizID,
              ⟨item.bizID, outcome.decision, outcome.reasons, true, "", 1⟩)]
            overallDecision := outcome.decision
            blockedCount := 1
            passedCount := 0
            usedFallback := false
            pendingAsync := sv.pendingAsync }
      else
        Except.ok
          { results := [(item.bizID,
              ⟨item.bizID, outcome.decision, outcome.reasons, false, "", 1⟩)]
            overallDecision := outcome.decision
            blockedCount := 0
            passedCount := if outcome.decision = Decision.pass then 1 else 0
            usedFallback := false
            pendingAsync := sv.pendingAsync }
    | none =>
      Except.ok
        { results := [(item.bizID, ⟨item.bizID, Decision.pending, [], false, "", 1⟩)]
          overallDecision := Decision.pending
          blockedCount := 0
          passedCount := 0
          usedFallback := false
          pendingAsync := sv.pendingAsync }

/-- The chunk loop of `Client.submitBatchInChunks`.  Each round takes a
chunk of `m + 1` items (`m + 1` is the effective `MaxMergeCount`, which
`SubmitBatch` guarantees to be at least 1), merges it, and unions the
chunk results; an error from the merged chunk submission marks every
remaining item as `DecisionError` and stops. -/
def submitBatchChunksAux (submit : SubmitOracle) (input : SubmitBatchInput) (m : Nat) :
    List BatchItem → SubmitBatchResult → SubmitBatchResult
  | [], res => res
  | item :: rest, res =>
    match submitBatchMerged submit { input with items := item :: rest.take m } with
    | Except.error e =>
      { res with
        results := (item :: rest).foldl (fun acc it =>
          setAssoc acc it.bizID
            ⟨it.bizID, Decision.error, [⟨"batch_error", e, "", [], none⟩], false, "", 0⟩)
          res.results
        overallDecision := Decision.error }
    | Except.ok chunkResult =>
      submitBatchChunksAux submit input m (rest.drop m)
        (let res2 := chunkResult.results.foldl (fun r kv =>
          { r with
            results := setAssoc r.results kv.1 kv.2
            blockedCount := if kv.2.blocked then r.blockedCount + 1 else r.blockedCount
            passedCount :=
              if kv.2.blocked then r.passedCount
              else if kv.2.decision = Decision.pass then r.passedCount + 1
              else r.passedCount }) res
        { res2 with
          usedFallback := res2.usedFallback || chunkResult.usedFallback
          pendingAsync := res2.pendingAsync || chunkResult.pendingAsync
          overallDecision :=
            if decisionSeverity res2.overallDecision <
                decisionSeverity chunkResult.overallDecision
            then chunkResult.overallDecision else res2.overallDecision })
  termination_by l => l.length
  decreasing_by simp [List.length_drop]; omega

/-- `Client.SubmitBatch`: defaulting of `FallbackThreshold` (0.8) and
`MaxMergeCount` (10), single-item bypass, chunking for oversized
batches, merged submission otherwise. -/
def SubmitBatch (submit : SubmitOracle) (input : SubmitBatchInput) :
    Except String SubmitBatchResult :=
  if input.items = [] then Except.error "ErrNoResources"
  else
    match { input with
            fallbackThreshold :=
              if input.fallbackThreshold = 0 then 8 / 10 else input.fallbackThreshold,
            maxMergeCount :=
              if input.maxMergeCount = 0 then 10 else input.maxMergeCount } with
    | input2 =>
      match input2.items with
      | [item] => submitSingleBatchItem submit item
      | _ =>
        if input2.items.length > input2.maxMergeCount then
          Except.ok (submitBatchChunksAux submit input2 (input2.maxMergeCount - 1)
            input2.items ⟨[], Decision.pass, 0, 0, false, false⟩)
        else submitBatchMerged submit input2

/-! ## Store state and client orchestration (`client/client.go`, `store/sql/sql_store.go`)

The store is embedded as an explicit in-memory state with the SQL
store's observable semantics: creation appends a row with a generated
id (modelled as a counter), point updates map over the rows, a
`RowsAffected`-style `changed` flag for `UpdateBizDecision`, and
updates of missing rows are no-ops.  Row ids are `Nat` (the Go empty
string id is `0`); `created_at`/`updated_at` timestamps are wall-clock
metadata outside the model.  The serialized `OutcomeJSON`/`ResultJSON`
columns are modelled as `Option` values; `parseOutcome` of a column
that was never written models the Go parse behaviour for the empty
string only up to decision-irrelevant fields (that case is unreachable
in every theorem below, because the dedup path always writes the
synthetic outcome). -/
/-- `censor.ReviewStatus`. -/
inductive ReviewStatus where
  | pending
  | running
  | done
  | failed
  | canceled
  deriving DecidableEq, Repr

/-- `censor.ResourceType`. -/
inductive ResourceType where
  | text
  | image
  | video
  deriving DecidableEq, Repr

/-- `censor.BizContext` (submitter/trace/creation metadata carries no
client logic and is omitted). -/
structure BizContext where
  bizType : String
  bizID : String
  field : String
  deriving DecidableEq, Repr

/-- `censor.Resource` (the free-form `Extra` map is omitted). -/
structure Resource where
  resourceID : String
  type : ResourceType
  contentText : GoStr
  contentURL : String
  contentHash : String
  deriving DecidableEq, Repr

/-- `censor.ReviewResult`. -/
structure ReviewResult where
  decision : Decision
  confidence : ℚ
  reasons : List Reason
  provider : String
  deriving DecidableEq, Repr

/-- `censor.BizReview` row. -/
structure BizReview where
  id : Nat
  bizType : String
  bizID : String
  field : String
  decision : Decision
  status : ReviewStatus
  deriving DecidableEq, Repr

/-- `censor.ResourceReview` row. -/
structure ResourceReview where
  id : Nat
  bizReviewID : Nat
  resourceID : String
  resourceType : ResourceType
  contentHash : String
  contentText : GoStr
  contentURL : String
  decision : Decision
  outcome : Option FinalOutcome
  deriving DecidableEq, Repr

/-- `censor.ProviderTask` row (`RawJSON` carries no logic and is
omitted). -/
structure ProviderTask where
  id : Nat
  resourceReviewID : Nat
  provider : String
  mode : String
  remoteTaskID : String
  done : Bool
  result : Option ReviewResult
  deriving DecidableEq, Repr

/-- `censor.CensorBinding` row. -/
structure CensorBinding where
  id : Nat
  bizType : String
  bizID : String
  field : String
  resourceID : String
  resourceType : ResourceType
  contentHash : String
  reviewID : Nat
  decision : Decision
  replacePolicy : String
  replaceValue : String
  violationRefID : Nat
  reviewRevision : Nat
  deriving DecidableEq, Repr

/-- `censor.ViolationSnapshot` row. -/
structure ViolationSnapshot where
  id : Nat
  bizType : String
  bizID : String
  field : String
  resourceID : String
  resourceType : ResourceType
  contentHash : String
  outcome : FinalOutcome
  deriving DecidableEq, Repr

/-- `censor.CensorBindingHistory` row (reviewer id and comment are
empty on the auto path and omitted). -/
structure CensorBindingHistory where
  bizType : String
  bizID : String
  field : String
  resourceID : String
  resourceType : ResourceType
  decision : Decision
  replacePolicy : String
  replaceValue : String
  violationRefID : Nat
  reviewRevision : Nat
  reasons : List Reason
  source : String
  deriving DecidableEq, Repr

/-- The whole persistent state behind the `Store` interface. -/
structure StoreState where
  bizReviews : List BizReview
  resourceReviews : List ResourceReview
  providerTasks : List ProviderTask
  bindings : List CensorBinding
  snapshots : List ViolationSnapshot
  histories : List CensorBindingHistory
  nextID : Nat
  deriving DecidableEq, Repr

/-- SQL point lookup (`SELECT ... WHERE`): first row satisfying the
predicate. -/
def findRow (p : α → Bool) : List α → Option α
  | [] => none
  | x :: l => if p x then some x else findRow p l

/-- `Store.CreateBizReview`: insert with decision pending, status
pending. -/
def createBizReview (biz : BizContext) (s : StoreState) : Nat × StoreState :=
  (s.nextID,
    { s with
      bizReviews := s.bizReviews ++
        [⟨s.nextID, biz.bizType, biz.bizID, biz.field, Decision.pending, ReviewStatus.pending⟩]
      nextID := s.nextID + 1 })

/-- `Store.GetBizReview`. -/
def getBizReview (id : Nat) (s : StoreState) : Option BizReview :=
  findRow (fun br => br.id == id) s.bizReviews

/-- The row update of `Store.UpdateBizDecision`. -/
def setBizDecision (id : Nat) (d : Decision) (br : BizReview) : BizReview :=
  if br.id == id then { br with decision := d } else br

/-- `Store.UpdateBizDecision`: `UPDATE ... WHERE id = ? AND decision != ?`;
`changed` is the rows-affected flag. -/
def updateBizDecision (id : Nat) (d : Decision) (s : StoreState) : Bool × StoreState :=
  (match findRow (fun br => br.id == id) s.bizReviews with
    | some br => decide (br.decision ≠ d)
    | none => false,
    { s with bizReviews := s.bizReviews.map (setBizDecision id d) })

/-- The row update of `Store.UpdateBizStatus`. -/
def setBizStatus (id : Nat) (st : ReviewStatus) (br : BizReview) : BizReview :=
  if br.id == id then { br with status := st } else br

/-- `Store.UpdateBizStatus`. -/
def updateBizStatus (id : Nat) (st : ReviewStatus) (s : StoreState) : StoreState :=
  { s with bizReviews := s.bizReviews.map (setBizStatus id st) }

/-- `Store.CreateResourceReview`: insert with decision pending and no
outcome. -/
def createResourceReview (bizReviewID : Nat) (r : Resource) (s : StoreState) :
    Nat × StoreState :=
  (s.nextID,
    { s with
      resourceReviews := s.resourceReviews ++
        [⟨s.nextID, bizReviewID, r.resourceID, r.type, r.contentHash, r.contentText,
          r.contentURL, Decision.pending, none⟩]
      nextID := s.nextID + 1 })

/-- `Store.GetResourceReview`. -/
def getResourceReview (id : Nat) (s : StoreState) : Option ResourceReview :=
  findRow (fun rr => rr.id == id) s.resourceReviews

/-- The row update of `Store.UpdateResourceOutcome`: decision and
serialized outcome. -/
def setResourceOutcome (id : Nat) (outcome : FinalOutcome) (rr : ResourceReview) :
    ResourceReview :=
  if rr.id == id then { rr with decision := outcome.decision, outcome := some outcome } else rr

/-- `Store.UpdateResourceOutcome`. -/
def updateResourceOutcome (id : Nat) (outcome : FinalOutcome) (s : StoreState) : StoreState :=
  { s with resourceReviews := s.resourceReviews.map (setResourceOutcome id outcome) }

/-- `Store.ListResourceReviewsByBizReview`. -/
def listResourceReviewsByBizReview (bizReviewID : Nat) (s : StoreState) :
    List ResourceReview :=
  s.resourceReviews.filter (fun rr => rr.bizReviewID == bizReviewID)

/-- `Store.CreateProviderTask`: insert with `Done = false` and no
result. -/
def createProviderTask (resourceReviewID : Nat) (provider mode remoteTaskID : String)
    (s : StoreState) : Nat × StoreState :=
  (s.nextID,
    { s with
      providerTasks := s.providerTasks ++
        [⟨s.nextID, resourceReviewID, provider, mode, remoteTaskID, false, none⟩]
      nextID := s.nextID + 1 })

/-- `Store.GetProviderTask`. -/
def getProviderTask (id : Nat) (s : StoreState) : Option ProviderTask :=
  findRow (fun pt => pt.id == id) s.providerTasks

/-- The row update of `Store.UpdateProviderTaskResult`. -/
def setTaskResult (taskID : Nat) (done : Bool) (result : Option ReviewResult)
    (pt : ProviderTask) : ProviderTask :=
  if pt.id == taskID then { pt with done := done, result := result } else pt

/-- `Store.UpdateProviderTaskResult`. -/
def updateProviderTaskResult (taskID : Nat) (done : Bool) (result : Option ReviewResult)
    (s : StoreState) : StoreState :=
  { s with providerTasks := s.providerTasks.map (setTaskResult taskID done result) }

/-- The unique key of `censor_binding`: (biz_type, biz_id, field). -/
def bindingKeyIs (bizType bizID field : String) (b : CensorBinding) : Bool :=
  b.bizType == bizType && b.bizID == bizID && b.field == field

/-- `Store.GetBinding` (missing row is `nil, nil` in Go, `none` here). -/
def getBinding (bizType bizID field : String) (s : StoreState) : Option CensorBinding :=
  findRow (bindingKeyIs bizType bizID field) s.bindings

/-- `Store.UpsertBinding`: `ON DUPLICATE KEY UPDATE` keeps the existing
row's id and overwrites every other column; a fresh insert generates an
id when the binding carries none. -/
def upsertBinding (b : CensorBinding) (s : StoreState) : StoreState :=
  if s.bindings.any (bindingKeyIs b.bizType b.bizID b.field) then
    { s with bindings := s.bindings.map (fun x =>
        if bindingKeyIs b.bizType b.bizID b.field x then { b with id := x.id } else x) }
  else
    if b.id == 0 then
      { s with bindings := s.bindings ++ [{ b with id := s.nextID }], nextID := s.nextID + 1 }
    else { s with bindings := s.bindings ++ [b] }

/-- `Store.CreateBindingHistory` (append-only). -/
def createBindingHistory (h : CensorBindingHistory) (s : StoreState) : StoreState :=
  { s with histories := s.histories ++ [h] }

/-- `Store.SaveViolationSnapshot`. -/
def saveViolationSnapshot (biz : BizContext) (r : Resource) (outcome : FinalOutcome)
    (s : StoreState) : Nat × StoreState :=
  (s.nextID,
    { s with
      snapshots := s.snapshots ++
        [⟨s.nextID, biz.bizType, biz.bizID, biz.field, r.resourceID, r.type,
          r.contentHash, outcome⟩]
      nextID := s.nextID + 1 })

/-- `client.pipelineResult`, restricted to what `Client.Submit` reads
(`providerResults` and `missingScenes` feed only logging and hook
payloads). -/
structure PipelineResult where
  mode : String
  primaryTaskID : String
  secondaryTaskID : String
  finalOutcome : Option FinalOutcome
  deriving DecidableEq, Repr

/-- `pipelineResult.isComplete`: sync mode with an immediate final
outcome. -/
def PipelineResult.isComplete (pr : PipelineResult) : Bool :=
  pr.mode == "sync" && pr.finalOutcome.isSome

/-- The client options `Client.Submit` reads. -/
structure ClientOpts where
  pipelinePrimary : String
  pipelineSecondary : String
  enableDedup : Bool
  textMerge : TextMergeStrategy

/-- The client together with its I/O collaborators: `exec` abstracts
`pipelineExecutor.execute` (provider network calls; the error string is
the provider error's message), `hashText`/`hashURL` abstract
`utils.HashText`/`utils.HashURL` (SHA-256, not re-verified here). -/
structure ClientEnv where
  opts : ClientOpts
  exec : Resource → Except String PipelineResult
  hashText : GoStr → String
  hashURL : String → String

/-- `Client.computeHash`. -/
def computeHash (env : ClientEnv) (r : Resource) : String :=
  match r.type with
  | ResourceType.text => env.hashText r.contentText
  | _ => env.hashURL r.contentURL

/-- `Client.parseOutcome` on the modelled `Option` column: a stored
outcome parses back to itself; the never-written column maps to the
parse-failure outcome. -/
def parseOutcome (o : Option FinalOutcome) : FinalOutcome :=
  match o with
  | some v => v
  | none =>
    ⟨Decision.error, "", "", [⟨"parse_error", "Failed to parse outcome JSON", "", [], none⟩], 0⟩

/-- `Client.checkDedup`: a binding for the same (bizType, bizID, field)
with the same content hash and a non-pending decision yields a
synthetic ResourceReview whose outcome is rebuilt from the binding's
decision, replace policy, and replace value (reasons and risk level are
not stored in the binding and come back empty). -/
def checkDedup (biz : BizContext) (r : Resource) (s : StoreState) : Option ResourceReview :=
  match getBinding biz.bizType biz.bizID biz.field s with
  | none => none
  | some binding =>
    if binding.contentHash == r.contentHash && decide (binding.decision ≠ Decision.pending) then
      some ⟨binding.reviewID, 0, "", ResourceType.text, "", [], "", binding.decision,
        some ⟨binding.decision, binding.replacePolicy, binding.replaceValue, [], 0⟩⟩
    else none

/-- `Client.createProviderTasks`: one row for the primary, one for the
secondary when a secondary task id exists. -/
def createProviderTasks (opts : ClientOpts) (resourceReviewID : Nat) (pr : PipelineResult)
    (s : StoreState) : StoreState :=
  if pr.secondaryTaskID ≠ "" then
    (createProviderTask resourceReviewID opts.pipelineSecondary pr.mode pr.secondaryTaskID
      (createProviderTask resourceReviewID opts.pipelinePrimary pr.mode pr.primaryTaskID s).2).2
  else
    (createProviderTask resourceReviewID opts.pipelinePrimary pr.mode pr.primaryTaskID s).2

/-- `Client.recordError`: an error-decision outcome carrying the error
message. -/
def recordError (resourceReviewID : Nat) (msg : String) (s : StoreState) : StoreState :=
  updateResourceOutcome resourceReviewID
    ⟨Decision.error, "", "", [⟨"error", msg, "", [], none⟩], 0⟩ s

/-- The binding built by `Client.handleViolation` before revision
adjustment (`ReviewID` is never set by the Go code and stays zero). -/
def newBinding (biz : BizContext) (r : Resource) (outcome : FinalOutcome)
    (snapshotID : Nat) : CensorBinding :=
  ⟨0, biz.bizType, biz.bizID, biz.field, r.resourceID, r.type, r.contentHash, 0,
    outcome.decision, outcome.replacePolicy, outcome.replaceValue, snapshotID, 1⟩

/-- The history row written by `Client.handleViolation`. -/
def historyRow (biz : BizContext) (r : Resource) (outcome : FinalOutcome)
    (snapshotID revision : Nat) : CensorBindingHistory :=
  ⟨biz.bizType, biz.bizID, biz.field, r.resourceID, r.type, outcome.decision,
    outcome.replacePolicy, outcome.replaceValue, snapshotID, revision, outcome.reasons,
    "auto"⟩

/-- `Client.handleViolation`: save a snapshot, then upsert the binding
(revision `existing + 1` when a binding exists, else 1), writing a
history row only when decision, replace policy, or violation reference
changed. -/
def handleViolation (biz : BizContext) (r : Resource) (outcome : FinalOutcome)
    (s : StoreState) : Nat × StoreState :=
  match getBinding biz.bizType biz.bizID biz.field (saveViolationSnapshot biz r outcome s).2 with
  | none =>
    ((saveViolationSnapshot biz r outcome s).1,
      upsertBinding (newBinding biz r outcome (saveViolationSnapshot biz r outcome s).1)
        (saveViolationSnapshot biz r outcome s).2)
  | some existing =>
    if existing.decision ≠ outcome.decision ∨
        existing.replacePolicy ≠ outcome.replacePolicy ∨
        existing.violationRefID ≠ (saveViolationSnapshot biz r outcome s).1 then
      ((saveViolationSnapshot biz r outcome s).1,
        upsertBinding
          { newBinding biz r outcome (saveViolationSnapshot biz r outcome s).1 with
            reviewRevision := existing.reviewRevision + 1 }
          (createBindingHistory
            (historyRow biz r outcome (saveViolationSnapshot biz r outcome s).1
              (existing.reviewRevision + 1))
            (saveViolationSnapshot biz r outcome s).2))
    else
      ((saveViolationSnapshot biz r outcome s).1,
        upsertBinding
          { newBinding biz r outcome (saveViolationSnapshot biz r outcome s).1 with
            reviewRevision := existing.reviewRevision + 1 }
          (saveViolationSnapshot biz r outcome s).2)

/-- Go's final decision in `Client.aggregateBizDecision`, via the C2
scan. -/
def bizFinalDecision (reviews : List ResourceReview) : Decision :=
  aggregateDecision (reviews.map (fun rr => rr.decision))

/-- Go's `allComplete` flag in `Client.aggregateBizDecision`. -/
def bizAllComplete (reviews : List ResourceReview) : Bool :=
  (aggregateScan (reviews.map (fun rr => rr.decision))).2

/-- `Client.aggregateBizDecision`: re-read the child reviews, persist
the aggregated decision, and flip the status to done once every child
is complete.  The `OnBizDecisionChanged` hook fired on the `changed`
flag has no store effect and is outside the modelled state. -/
def aggregateBizDecisionS (bizReviewID : Nat) (s : StoreState) : StoreState :=
  if bizAllComplete (listResourceReviewsByBizReview bizReviewID s) then
    updateBizStatus bizReviewID ReviewStatus.done
      (updateBizDecision bizReviewID
        (bizFinalDecision (listResourceReviewsByBizReview bizReviewID s)) s).2
  else
    (updateBizDecision bizReviewID
      (bizFinalDecision (listResourceReviewsByBizReview bizReviewID s)) s).2

/-- `client.SubmitResult`, modelled fields. -/
structure SubmitResultE where
  bizReviewID : Nat
  resourceReviewIDs : List (String × Nat)
  immediateResults : List (String × FinalOutcome)
  pendingAsync : Bool
  deriving DecidableEq, Repr

/-- `client.SubmitInput`, modelled fields (scenes are resolved into the
pipeline oracle). -/
structure SubmitInputE where
  biz : BizContext
  resources : List Resource
  enableTextMerge : Bool

/-- The body of `Client.Submit`'s per-resource loop: hash computation,
dedup short-circuit, review creation, pipeline execution with
error-isolation, provider task creation, and synchronous outcome
handling with violation bookkeeping. -/
def submitResource (env : ClientEnv) (biz : BizContext) (bizReviewID : Nat)
    (acc : SubmitResultE × StoreState) (resource0 : Resource) :
    SubmitResultE × StoreState :=
  match (if resource0.contentHash == "" then
          { resource0 with contentHash := computeHash env resource0 }
        else resource0) with
  | resource =>
    match (if env.opts.enableDedup then checkDedup biz resource acc.2 else none) with
    | some existing =>
      ({ acc.1 with
          resourceReviewIDs := setAssoc acc.1.resourceReviewIDs resource.resourceID existing.id
          immediateResults := setAssoc acc.1.immediateResults resource.resourceID
            (parseOutcome existing.outcome) },
        acc.2)
    | none =>
      match createResourceReview bizReviewID resource acc.2 with
      | (resourceReviewID, s1) =>
        match { acc.1 with
                resourceReviewIDs :=
                  setAssoc acc.1.resourceReviewIDs resource.resourceID resourceReviewID } with
        | res1 =>
          match env.exec resource with
          | Except.error e => (res1, recordError resourceReviewID e s1)
          | Except.ok pr =>
            match createProviderTasks env.opts resourceReviewID pr s1 with
            | s2 =>
              if pr.mode == "sync" then
                match pr.finalOutcome with
                | some outcome =>
                  match updateResourceOutcome resourceReviewID outcome s2 with
                  | s3 =>
                    ({ res1 with
                        immediateResults :=
                          setAssoc res1.immediateResults resource.resourceID outcome },
                      if outcome.decision = Decision.block ∨
                          outcome.decision = Decision.review then
                        (handleViolation biz resource outcome s3).2
                      else s3)
                | none => ({ res1 with pendingAsync := true }, s2)
              else ({ res1 with pendingAsync := true }, s2)

/-- `Client.mergeTextResources`: merge the text resources into one when
there are at least two and the merge succeeds; otherwise the input is
returned untouched. -/
def mergeTextResources (env : ClientEnv) (resources : List Resource) : List Resource :=
  if (resources.filter (fun r => r.type == ResourceType.text)).length ≤ 1 then resources
  else
    if (MergeTexts ((resources.filter (fun r => r.type == ResourceType.text)).map
          (fun r => r.contentText)) env.opts.textMerge).2 = false then
      resources
    else
      { resourceID :=
          (match resources.filter (fun r => r.type == ResourceType.text) with
            | r :: _ => r.resourceID
            | [] => "") ++ "_merged",
        type := ResourceType.text,
        contentText := (MergeTexts ((resources.filter
          (fun r => r.type == ResourceType.text)).map (fun r => r.contentText))
          env.opts.textMerge).1.merged,
        contentURL := "",
        contentHash := env.hashText (MergeTexts ((resources.filter
          (fun r => r.type == ResourceType.text)).map (fun r => r.contentText))
          env.opts.textMerge).1.merged } ::
        resources.filter (fun r => !(r.type == ResourceType.text))

/-- The client error values the embedded operations can return. -/
inductive ClientErr where
  | noResources
  | taskNotFound
  deriving DecidableEq, Repr

/-- `Client.Submit`: biz review creation, status to running, optional
text merge, the per-resource loop, and final aggregation.  Store writes
cannot fail in the in-memory model, so the only error is
`ErrNoResources`; hook firing has no store effect. -/
def Submit (env : ClientEnv) (input : SubmitInputE) (s : StoreState) :
    Except ClientErr (SubmitResultE × StoreState) :=
  if input.resources = [] then Except.error ClientErr.noResources
  else
    match createBizReview input.biz s with
    | (bizReviewID, s1) =>
      match updateBizStatus bizReviewID ReviewStatus.running s1 with
      | s2 =>
        match (if input.enableTextMerge then mergeTextResources env input.resources
              else input.resources).foldl
            (submitResource env input.biz bizReviewID) (⟨bizReviewID, [], [], false⟩, s2) with
        | (res, s3) => Except.ok (res, aggregateBizDecisionS bizReviewID s3)

/-- `Client.processAsyncCompletion`: load the parent ResourceReview,
build a FinalOutcome from the single async result (no secondary-provider
merge), persist it, and re-aggregate the parent BizReview. -/
def processAsyncCompletion (task : ProviderTask) (result : ReviewResult) (s : StoreState) :
    Except ClientErr StoreState :=
  match getResourceReview task.resourceReviewID s with
  | none => Except.error ClientErr.taskNotFound
  | some rr =>
    match updateResourceOutcome task.resourceReviewID
        ⟨result.decision, "", "", result.reasons, 0⟩ s with
    | s1 =>
      match getBizReview rr.bizReviewID s1 with
      | none => Except.error ClientErr.taskNotFound
      | some _ => Except.ok (aggregateBizDecisionS rr.bizReviewID s1)

/-- The async-completion sequence shared by `Client.HandleCallback` and
`Poller.processTask`: `UpdateProviderTaskResult` (done, with the
result) followed by `processAsyncCompletion` on the pre-fetched task. -/
def completeTask (task : ProviderTask) (result : ReviewResult) (s : StoreState) :
    Except ClientErr StoreState :=
  processAsyncCompletion task result (updateProviderTaskResult task.id true (some result) s)

/-- A concrete block outcome for exercising the submit pipeline. -/
def sampleOutcome : FinalOutcome := ⟨Decision.block, "", "", [], 0⟩

/-- A concrete synchronous pipeline result carrying `sampleOutcome`. -/
def samplePipelineResult : PipelineResult := ⟨"sync", "pt1", "", some sampleOutcome⟩

/-- A concrete client environment whose pipeline fails on text resources
and succeeds synchronously on everything else. -/
def sampleEnv : ClientEnv :=
  ⟨⟨"primary", "secondary", false, ⟨100, ['\n']⟩⟩,
    fun r =>
      match r.type with
      | ResourceType.text => Except.error "boom"
      | _ => Except.ok samplePipelineResult,
    fun _ => "ht", fun _ => "hu"⟩

/-- A concrete text resource (its submission fails in `sampleEnv`). -/
def sampleTextResource : Resource := ⟨"res1", ResourceType.text, ['a'], "", "h1"⟩

/-- A concrete image resource (its submission succeeds in `sampleEnv`). -/
def sampleImageResource : Resource := ⟨"res2", ResourceType.image, [], "u2", "h2"⟩

/-- A concrete provider review result for exercising async completion. -/
def sampleReviewResult : ReviewResult := ⟨Decision.pass, 1, [], "prov"⟩

/-- A concrete async provider task. -/
def sampleTask : ProviderTask := ⟨30, 10, "prov", "async", "rt1", false, none⟩

/-- A concrete store holding the rows `sampleTask` refers to. -/
def sampleStore : StoreState :=
  ⟨[⟨20, "bt", "b1", "f", Decision.pending, ReviewStatus.running⟩],
   [⟨10, 20, "res1", ResourceType.text, "h", [], "", Decision.pending, none⟩],
   [⟨30, 10, "prov", "async", "rt1", false, none⟩], [], [], [], 100⟩

/-- A dedup-enabled client environment whose pipeline always returns a
synchronous pass outcome. -/
def dedupPassEnv : ClientEnv :=
  ⟨⟨"primary", "secondary", true, ⟨100, ['\n']⟩⟩,
    fun _ => Except.ok ⟨"sync", "pt1", "", some ⟨Decision.pass, "", "", [], 0⟩⟩,
    fun _ => "ht", fun _ => "hu"⟩

/-- A concrete resource with a fixed content hash, submitted twice in
the dedup scenarios. -/
def dedupPassResource : Resource := ⟨"res1", ResourceType.text, ['a'], "", "h1"⟩

/-- The block outcome of the dedup witness scenario. -/
def dedupBlockOutcome : FinalOutcome := ⟨Decision.block, "mask", "***", [], 0⟩

/-- The synchronous pipeline result carrying `dedupBlockOutcome`. -/
def dedupBlockPr : PipelineResult := ⟨"sync", "pt1", "", some dedupBlockOutcome⟩

/-- A dedup-enabled client environment whose pipeline always blocks. -/
def dedupBlockEnv : ClientEnv :=
  ⟨⟨"primary", "secondary", true, ⟨100, ['\n']⟩⟩, fun _ => Except.ok dedupBlockPr,
    fun _ => "ht", fun _ => "hu"⟩

theorem aggregateStep_snd (acc : Decision × Bool) (d : Decision)
    (hd : d ≠ Decision.pending) : (aggregateStep acc d).2 = acc.2 := by
  unfold aggregateStep
  rw [if_neg hd]
  by_cases h : decisionSeverity acc.1 < decisionSeverity d
  · rw [if_pos h]
  · rw [if_neg h]

theorem aggregateStep_fst_ne (acc : Decision × Bool) (d : Decision)
    (hacc : acc.1 ≠ Decision.pending) (hd : d ≠ Decision.pending) :
    (aggregateStep acc d).1 ≠ Decision.pending := by
  unfold aggregateStep
  rw [if_neg hd]
  by_cases h : decisionSeverity acc.1 < decisionSeverity d
  · rw [if_pos h]; exact hd
  · rw [if_neg h]; exact hacc

theorem aggregateFold_snd_iff (ds : List Decision) (acc : Decision × Bool) :
    (ds.foldl aggregateStep acc).2 = true ↔
      acc.2 = true ∧ Decision.pending ∉ ds := by
  induction ds generalizing acc with
  | nil => simp
  | cons d ds ih =>
    by_cases hd : d = Decision.pending
    · subst hd
      have hstep : aggregateStep acc Decision.pending = (acc.1, false) := by
        unfold aggregateStep; rw [if_pos rfl]
      simp only [List.foldl_cons, hstep, ih]
      simp
    · have hstep := aggregateStep_snd acc d hd
      simp only [List.foldl_cons, ih, hstep, List.mem_cons]
      constructor
      · rintro ⟨h1, h2⟩
        exact ⟨h1, by rintro (h | h); exact hd h.symm; exact h2 h⟩
      · rintro ⟨h1, h2⟩
        exact ⟨h1, fun h => h2 (Or.inr h)⟩

theorem aggregateFold_fst_ne (ds : List Decision) (acc : Decision × Bool)
    (hacc : acc.1 ≠ Decision.pending) (hds : Decision.pending ∉ ds) :
    (ds.foldl aggregateStep acc).1 ≠ Decision.pending := by
  induction ds generalizing acc with
  | nil => exact hacc
  | cons d ds ih =>
    have hd : d ≠ Decision.pending := fun h => hds (h ▸ List.mem_cons_self d ds)
    have hds' : Decision.pending ∉ ds := fun h => hds (List.mem_cons_of_mem d h)
    exact ih (aggregateStep acc d) (aggregateStep_fst_ne acc d hacc hd) hds'

theorem aggregateFold_fst_mono (ds : List Decision) (acc : Decision × Bool) :
    decisionSeverity acc.1 ≤ decisionSeverity (ds.foldl aggregateStep acc).1 := by
  induction ds generalizing acc with
  | nil => exact le_refl _
  | cons d ds ih =>
    refine le_trans ?_ (ih (aggregateStep acc d))
    unfold aggregateStep
    by_cases hd : d = Decision.pending
    · rw [if_pos hd]
    · rw [if_neg hd]
      by_cases h : decisionSeverity acc.1 < decisionSeverity d
      · rw [if_pos h]; exact le_of_lt h
      · rw [if_neg h]

theorem aggregateFold_fst_bound (ds : List Decision) (acc : Decision × Bool)
    (d : Decision) (hmem : d ∈ ds) (hd : d ≠ Decision.pending) :
    decisionSeverity d ≤ decisionSeverity (ds.foldl aggregateStep acc).1 := by
  induction ds generalizing acc with
  | nil => cases hmem
  | cons e ds ih =>
    rcases List.mem_cons.mp hmem with h | h
    · subst h
      refine le_trans ?_ (aggregateFold_fst_mono ds (aggregateStep acc d))
      unfold aggregateStep
      rw [if_neg hd]
      by_cases h : decisionSeverity acc.1 < decisionSeverity d
      · rw [if_pos h]
      · rw [if_neg h]; exact le_of_not_lt h
    · exact ih (aggregateStep acc e) h

theorem aggregateFold_fst_mem (ds : List Decision) (acc : Decision × Bool) :
    (ds.foldl aggregateStep acc).1 = acc.1 ∨ (ds.foldl aggregateStep acc).1 ∈ ds := by
  induction ds generalizing acc with
  | nil => exact Or.inl rfl
  | cons d ds ih =>
    rcases ih (aggregateStep acc d) with h | h
    · rw [List.foldl_cons, h]
      unfold aggregateStep
      by_cases hd : d = Decision.pending
      · rw [if_pos hd]; exact Or.inl rfl
      · by_cases hlt : decisionSeverity acc.1 < decisionSeverity d
        · rw [if_neg hd, if_pos hlt]
          exact Or.inr (List.mem_cons_self d ds)
        · rw [if_neg hd, if_neg hlt]
          exact Or.inl rfl
    · exact Or.inr (List.mem_cons_of_mem d h)

theorem severity_zero_not_pending (d : Decision) (h : decisionSeverity d = 0) :
    d = Decision.pass := by
  cases d <;> simp [decisionSeverity] at h ⊢

/-- C2. `aggregateBizDecision` over the decisions of the child
ResourceReviews of one BizReview yields `pending` iff at least one child
decision is pending; otherwise (for a non-empty list of children) it
yields the severity-maximum of the children's decisions under the order
pass(0) < pending(1) < review(2) < block(3) < error(4): the result is one
of the children's decisions and its severity dominates all of them. -/
theorem aggregate_pending_iff_and_severity_max (ds : List Decision) :
    (aggregateDecision ds = Decision.pending ↔ Decision.pending ∈ ds) ∧
    (Decision.pending ∉ ds → ds ≠ [] →
      aggregateDecision ds ∈ ds ∧
      ∀ d ∈ ds, decisionSeverity d ≤ decisionSeverity (aggregateDecision ds)) := by
  have hscan : aggregateScan ds = ds.foldl aggregateStep (Decision.pass, true) := rfl
  constructor
  · constructor
    · intro h
      by_contra hmem
      have h2 : (aggregateScan ds).2 = true := by
        rw [hscan]
        exact (aggregateFold_snd_iff ds (Decision.pass, true)).mpr ⟨rfl, hmem⟩
      have hne : (aggregateScan ds).1 ≠ Decision.pending := by
        rw [hscan]
        exact aggregateFold_fst_ne ds (Decision.pass, true) (by simp) hmem
      unfold aggregateDecision at h
      rw [if_pos h2] at h
      exact hne h
    · intro hmem
      have h2 : (aggregateScan ds).2 ≠ true := by
        rw [hscan]
        intro h
        exact ((aggregateFold_snd_iff ds (Decision.pass, true)).mp h).2 hmem
      unfold aggregateDecision
      rw [if_neg h2]
  · intro hmem hne
    have h2 : (aggregateScan ds).2 = true := by
      rw [hscan]
      exact (aggregateFold_snd_iff ds (Decision.pass, true)).mpr ⟨rfl, hmem⟩
    have hval : aggregateDecision ds = (ds.foldl aggregateStep (Decision.pass, true)).1 := by
      unfold aggregateDecision
      rw [if_pos h2, hscan]
    constructor
    · rcases aggregateFold_fst_mem ds (Decision.pass, true) with h | h
      · rcases ds with _ | ⟨d0, ds'⟩
        · exact absurd rfl hne
        · have hd0ne : d0 ≠ Decision.pending := by
            intro hcon
            exact hmem (hcon ▸ List.mem_cons_self d0 ds')
          have hd0 : decisionSeverity d0 ≤
              decisionSeverity ((d0 :: ds').foldl aggregateStep (Decision.pass, true)).1 :=
            aggregateFold_fst_bound _ _ d0 (List.mem_cons_self d0 ds') hd0ne
          rw [h] at hd0
          have hz : decisionSeverity d0 = 0 := Nat.le_zero.mp hd0
          have hd0pass : d0 = Decision.pass := severity_zero_not_pending d0 hz
          rw [hval, h, ← hd0pass]
          exact List.mem_cons_self d0 ds'
      · rw [hval]; exact h
    · intro d hd
      have hdne : d ≠ Decision.pending := fun hcon => hmem (hcon ▸ hd)
      rw [hval]
      exact aggregateFold_fst_bound ds (Decision.pass, true) d hd hdne

/-- Witness for C2 at a concrete input: for children `[pass, block]`
(no pending child), the aggregate is a member of the list and dominates
both children's severities. -/
theorem aggregate_pending_iff_and_severity_max_witness :
    aggregateDecision [Decision.pass, Decision.block] ∈
        [Decision.pass, Decision.block] ∧
      ∀ d ∈ [Decision.pass, Decision.block],
        decisionSeverity d ≤
          decisionSeverity (aggregateDecision [Decision.pass, Decision.block]) :=
  (aggregate_pending_iff_and_severity_max [Decision.pass, Decision.block]).2
    (by decide) (by decide)

theorem mergeTail_split (sep : GoStr) (ps : List GoStr) :
    ∀ (pos : Nat) (pre : GoStr), pre.length = pos →
      (mergeTail sep pos ps).2.map (fun idx =>
        if idx.stop ≤ (pre ++ (mergeTail sep pos ps).1).length then
          ((pre ++ (mergeTail sep pos ps).1).drop idx.start).take (idx.stop - idx.start)
        else []) = ps := by
  induction ps with
  | nil => intro pos pre hpre; simp [mergeTail]
  | cons p ps ih =>
    intro pos pre hpre
    simp only [mergeTail, List.map_cons, List.cons.injEq]
    constructor
    · have hguard : pos + sep.length + p.length ≤
          (pre ++ (sep ++ p ++ (mergeTail sep (pos + sep.length + p.length) ps).1)).length := by
        simp [List.length_append, hpre]
        omega
      rw [if_pos hguard]
      have hsub : pos + sep.length + p.length - (pos + sep.length) = p.length := by omega
      rw [hsub]
      have hassoc : pre ++ (sep ++ p ++ (mergeTail sep (pos + sep.length + p.length) ps).1) =
          (pre ++ sep) ++ (p ++ (mergeTail sep (pos + sep.length + p.length) ps).1) := by
        simp [List.append_assoc]
      rw [hassoc]
      have hdrop : ((pre ++ sep) ++
          (p ++ (mergeTail sep (pos + sep.length + p.length) ps).1)).drop (pos + sep.length) =
          p ++ (mergeTail sep (pos + sep.length + p.length) ps).1 := by
        have hlen : (pre ++ sep).length = pos + sep.length := by
          simp [List.length_append, hpre]
        rw [← hlen, List.drop_left]
      rw [hdrop, List.take_left]
    · have hlen2 : (pre ++ (sep ++ p)).length = pos + sep.length + p.length := by
        simp [List.length_append, hpre]
        omega
      have := ih (pos + sep.length + p.length) (pre ++ (sep ++ p)) hlen2
      rw [List.append_assoc pre (sep ++ p)
            (mergeTail sep (pos + sep.length + p.length) ps).1] at this
      exact this

/-- C4. Splitting the MergedText returned by MergeTexts reconstructs the
original part list exactly, for every non-empty part list whose total
length (separators included) is at most `MaxLen`. -/
theorem split_merge_roundtrip (parts : List GoStr) (strategy : TextMergeStrategy)
    (hne : parts ≠ [])
    (hlen : totalLen strategy.separator parts ≤ strategy.maxLen) :
    SplitMergedText (MergeTexts parts strategy).1 = parts := by
  match parts with
  | [] => exact absurd rfl hne
  | [p] =>
    simp [MergeTexts, SplitMergedText]
  | p1 :: p2 :: rest =>
    have hnotover : ¬ totalLen strategy.separator (p1 :: p2 :: rest) > strategy.maxLen :=
      not_lt.mpr hlen
    simp only [MergeTexts, if_neg hnotover]
    simp only [SplitMergedText, mergeAllGo, List.map_cons, List.cons.injEq]
    constructor
    · have hguard : p1.length ≤ (p1 ++ (mergeTail strategy.separator p1.length (p2 :: rest)).1).length := by
        simp [List.length_append]
      rw [if_pos hguard]
      simp [List.take_left]
    · exact mergeTail_split strategy.separator (p2 :: rest) p1.length p1 rfl

/-- Witness for C4 at a concrete input: merging `["ab", "c"]` with
separator `"-"` under budget 9 and splitting again returns the parts. -/
theorem split_merge_roundtrip_witness :
    SplitMergedText (MergeTexts [['a', 'b'], ['c']] ⟨9, ['-']⟩).1 = [['a', 'b'], ['c']] :=
  split_merge_roundtrip [['a', 'b'], ['c']] ⟨9, ['-']⟩ (by decide) (by decide)

theorem mergeCappedTail_greedy (sep : GoStr) (maxLen : Nat) (ps : List GoStr) :
    ∀ pos, (mergeCappedTail sep maxLen pos ps).2.2 = specGreedyAux sep maxLen pos ps := by
  induction ps with
  | nil => intro pos; simp [mergeCappedTail, specGreedyAux]
  | cons p ps ih =>
    intro pos
    simp only [mergeCappedTail, specGreedyAux]
    by_cases h : pos + sep.length + p.length > maxLen
    · have h2 : pos + (p.length + sep.length) > maxLen := by omega
      rw [if_pos h2, if_pos h]
    · have h2 : ¬ pos + (p.length + sep.length) > maxLen := by omega
      rw [if_neg h2, if_neg h]
      simp [ih]

/-- C6 (amended). For every list of AT LEAST TWO parts whose total
length with separators exceeds `MaxLen`, `MergeTexts` includes exactly
the greedy left-to-right prefix of parts that keeps the running merged
length within budget (stopping at the first part that would overflow),
returns `ok = true` exactly when at least two parts fit, and returns the
zero-value MergedText when fewer than two fit. (For a SINGLE oversized
part the code returns the part verbatim with `ok = true`; see the
counterexample.) -/
theorem mergeTexts_overflow_greedy (sep : GoStr) (maxLen : Nat) (p1 p2 : GoStr)
    (rest : List GoStr)
    (hover : totalLen sep (p1 :: p2 :: rest) > maxLen) :
    ((MergeTexts (p1 :: p2 :: rest) ⟨maxLen, sep⟩).2 = true ↔
        2 ≤ (specGreedy sep maxLen (p1 :: p2 :: rest)).length) ∧
      ((MergeTexts (p1 :: p2 :: rest) ⟨maxLen, sep⟩).2 = true →
        (MergeTexts (p1 :: p2 :: rest) ⟨maxLen, sep⟩).1.parts =
          specGreedy sep maxLen (p1 :: p2 :: rest)) ∧
      ((MergeTexts (p1 :: p2 :: rest) ⟨maxLen, sep⟩).2 = false →
        (MergeTexts (p1 :: p2 :: rest) ⟨maxLen, sep⟩).1 = ⟨[], [], []⟩) := by
  simp only [MergeTexts, if_pos hover, mergeCapped, specGreedy]
  by_cases h1 : p1.length > maxLen
  · rw [if_pos h1, if_pos h1]
    simp
  · rw [if_neg h1, if_neg h1]
    rw [mergeCappedTail_greedy sep maxLen (p2 :: rest) p1.length]
    by_cases h2 : (p1 :: specGreedyAux sep maxLen p1.length (p2 :: rest)).length < 2
    · rw [if_pos h2]
      refine ⟨⟨fun h => Bool.noConfusion h,
        fun h => absurd h (by simp only [List.length_cons] at h2 ⊢; omega)⟩,
        fun h => Bool.noConfusion h, fun _ => rfl⟩
    · rw [if_neg h2]
      refine ⟨⟨fun _ => by simp only [List.length_cons] at h2 ⊢; omega, fun _ => rfl⟩,
        fun _ => rfl, fun h => Bool.noConfusion h⟩

/-- Witness for C6's amended theorem at a concrete input: parts
`["ab", "cd", "ef"]` with separator `"-"` and budget 5 overflow the
budget; the merge keeps the greedy prefix `["ab", "cd"]` with
`ok = true`. -/
theorem mergeTexts_overflow_greedy_witness :
    totalLen ['-'] [['a', 'b'], ['c', 'd'], ['e', 'f']] > 5 ∧
      (MergeTexts [['a', 'b'], ['c', 'd'], ['e', 'f']] ⟨5, ['-']⟩).1.parts =
        specGreedy ['-'] 5 [['a', 'b'], ['c', 'd'], ['e', 'f']] :=
  ⟨by decide,
    (mergeTexts_overflow_greedy ['-'] 5 ['a', 'b'] ['c', 'd'] [['e', 'f']]
          (by decide)).2.1 (by decide)⟩

/-- Counterexample to C6 as stated: a SINGLE part of length 3 with
budget 1 has total length exceeding `MaxLen` and fewer than two parts
fit (even the first part alone overflows), yet `MergeTexts` returns the
part verbatim with `ok = true` instead of the claimed `ok = false`,
because the single-part branch of `MergeTexts` never checks the
budget. -/
theorem mergeTexts_single_oversized_ok :
    totalLen ['-'] [['a', 'b', 'c']] > 1 ∧
      (specGreedy ['-'] 1 [['a', 'b', 'c']]).length < 2 ∧
      (MergeTexts [['a', 'b', 'c']] ⟨1, ['-']⟩).2 = true := by
  decide

theorem insertOnce_ne_nil (l : List String) (k : String) : insertOnce l k ≠ [] := by
  unfold insertOnce
  by_cases h : k ∈ l
  · rw [if_pos h]
    intro hcon
    rw [hcon] at h
    cases h
  · rw [if_neg h]
    simp

theorem foldl_pres (f : β → γ → β) (P : β → Prop) (h : ∀ b c, P b → P (f b c)) :
    ∀ (l : List γ) (b : β), P b → P (l.foldl f b) := by
  intro l
  induction l with
  | nil => intro b hb; exact hb
  | cons c l ih => intro b hb; exact ih (f b c) (h b c hb)

theorem foldl_hit (f : β → γ → β) (P : β → Prop) (hpres : ∀ b c, P b → P (f b c))
    (l : List γ) (c : γ) (hc : c ∈ l) (hhit : ∀ b, P (f b c)) :
    ∀ b, P (l.foldl f b) := by
  induction l with
  | nil => cases hc
  | cons d l ih =>
    intro b
    rcases List.mem_cons.mp hc with h | h
    · subst h
      exact foldl_pres f P hpres l (f b c) (hhit b)
    · exact ih h (f b d)

theorem posEntryStep_pres (keyOf : α → String) (index : List (String × PartIndex))
    (s e : Int) (acc2 : List String) (entry : α) (h : acc2 ≠ []) :
    posEntryStep keyOf index s e acc2 entry ≠ [] := by
  unfold posEntryStep
  by_cases hc : ((lookupIndexD index (keyOf entry)).start : Int) ≤ s ∧
      e ≤ ((lookupIndexD index (keyOf entry)).stop : Int)
  · rw [if_pos hc]; exact insertOnce_ne_nil acc2 (keyOf entry)
  · rw [if_neg hc]; exact h

theorem posReasonStep_some (keyOf : α → String) (entries : List α)
    (index : List (String × PartIndex)) (acc : List String) (reason : Reason)
    (raw : RawData) (hraw : reason.raw = some raw) :
    posReasonStep keyOf entries index acc reason =
      if (extractPosition raw).2.2 = true then
        entries.foldl
          (posEntryStep keyOf index (extractPosition raw).1 (extractPosition raw).2.1) acc
      else acc := by
  unfold posReasonStep
  rw [hraw]

theorem posReasonStep_none (keyOf : α → String) (entries : List α)
    (index : List (String × PartIndex)) (acc : List String) (reason : Reason)
    (hraw : reason.raw = none) :
    posReasonStep keyOf entries index acc reason = acc := by
  unfold posReasonStep
  rw [hraw]

theorem posReasonStep_pres (keyOf : α → String) (entries : List α)
    (index : List (String × PartIndex)) (acc : List String) (reason : Reason)
    (h : acc ≠ []) : posReasonStep keyOf entries index acc reason ≠ [] := by
  cases hraw : reason.raw with
  | none => rw [posReasonStep_none keyOf entries index acc reason hraw]; exact h
  | some raw =>
    rw [posReasonStep_some keyOf entries index acc reason raw hraw]
    by_cases hhas : (extractPosition raw).2.2 = true
    · rw [if_pos hhas]
      exact foldl_pres _ (fun l => l ≠ [])
        (fun b c hb => posEntryStep_pres keyOf index _ _ b c hb) entries acc h
    · rw [if_neg hhas]; exact h

theorem posFound_hit (keyOf : α → String) (entries : List α)
    (index : List (String × PartIndex)) (reasons : List Reason)
    (reason : Reason) (raw : RawData) (entry : α)
    (hrmem : reason ∈ reasons) (hraw : reason.raw = some raw)
    (hhas : (extractPosition raw).2.2 = true) (hemem : entry ∈ entries)
    (hs : ((lookupIndexD index (keyOf entry)).start : Int) ≤ (extractPosition raw).1)
    (he : (extractPosition raw).2.1 ≤ ((lookupIndexD index (keyOf entry)).stop : Int)) :
    posFound keyOf entries index reasons ≠ [] := by
  unfold posFound
  refine foldl_hit (posReasonStep keyOf entries index) (fun l => l ≠ [])
    (fun b c hb => posReasonStep_pres keyOf entries index b c hb)
    reasons reason hrmem ?_ []
  intro b
  rw [posReasonStep_some keyOf entries index b reason raw hraw, if_pos hhas]
  refine foldl_hit (posEntryStep keyOf index (extractPosition raw).1 (extractPosition raw).2.1)
    (fun l => l ≠ [])
    (fun b2 c2 hb2 => posEntryStep_pres keyOf index _ _ b2 c2 hb2)
    entries entry hemem ?_ b
  intro b2
  unfold posEntryStep
  rw [if_pos ⟨hs, he⟩]
  exact insertOnce_ne_nil b2 (keyOf entry)

theorem locatePositionCore_hit (keyOf : α → String) (entries : List α)
    (index : List (String × PartIndex)) (reasons : List Reason)
    (reason : Reason) (raw : RawData) (entry : α)
    (hrmem : reason ∈ reasons) (hraw : reason.raw = some raw)
    (hhas : (extractPosition raw).2.2 = true) (hemem : entry ∈ entries)
    (hs : ((lookupIndexD index (keyOf entry)).start : Int) ≤ (extractPosition raw).1)
    (he : (extractPosition raw).2.1 ≤ ((lookupIndexD index (keyOf entry)).stop : Int)) :
    (locatePositionCore keyOf entries index reasons).2 = 95 / 100 := by
  unfold locatePositionCore
  rw [if_neg (posFound_hit keyOf entries index reasons reason raw entry
    hrmem hraw hhas hemem hs he)]

theorem locatePositionCore_conf_cases (keyOf : α → String) (entries : List α)
    (index : List (String × PartIndex)) (reasons : List Reason) :
    (locatePositionCore keyOf entries index reasons).2 = 0 ∨
      (locatePositionCore keyOf entries index reasons).2 = 95 / 100 := by
  unfold locatePositionCore
  by_cases h : posFound keyOf entries index reasons = []
  · rw [if_pos h]; exact Or.inl rfl
  · rw [if_neg h]; exact Or.inr rfl

theorem locateKeywordCore_bounds (keyOf : α → String) (textOf : α → GoStr)
    (entries : List α) (reasons : List Reason) :
    0 ≤ (locateKeywordCore keyOf textOf entries reasons).2 ∧
      (locateKeywordCore keyOf textOf entries reasons).2 ≤ 85 / 100 := by
  unfold locateKeywordCore
  by_cases h : (keywordScan keyOf textOf entries reasons).1 ≠ [] ∧
      (keywordScan keyOf textOf entries reasons).2 > 0
  · rw [if_pos h]
    have hratio0 : (0 : ℚ) ≤
        ((maxMatches (keywordScan keyOf textOf entries reasons).1 : Nat) : ℚ) /
          (((keywordScan keyOf textOf entries reasons).2 : Nat) : ℚ) :=
      div_nonneg (Nat.cast_nonneg _) (Nat.cast_nonneg _)
    by_cases hcap :
        ((maxMatches (keywordScan keyOf textOf entries reasons).1 : Nat) : ℚ) /
          (((keywordScan keyOf textOf entries reasons).2 : Nat) : ℚ) > 1
    · rw [if_pos hcap]
      norm_num
    · rw [if_neg hcap]
      constructor
      · exact mul_nonneg hratio0 (by norm_num)
      · calc ((maxMatches (keywordScan keyOf textOf entries reasons).1 : Nat) : ℚ) /
              (((keywordScan keyOf textOf entries reasons).2 : Nat) : ℚ) * (85 / 100)
            ≤ 1 * (85 / 100) :=
              mul_le_mul_of_nonneg_right (not_lt.mp hcap) (by norm_num)
          _ = 85 / 100 := one_mul _
  · rw [if_neg h]
    norm_num

theorem locateCascadeCore_bounds (keyOf : α → String) (textOf : α → GoStr)
    (entries : List α) (index : List (String × PartIndex)) (reasons : List Reason) :
    0 ≤ (locateCascadeCore keyOf textOf entries index reasons).2.1 ∧
      (locateCascadeCore keyOf textOf entries index reasons).2.1 ≤ 1 := by
  unfold locateCascadeCore
  by_cases hr : reasons = []
  · rw [if_pos hr]
    norm_num
  · rw [if_neg hr]
    by_cases hp : (locatePositionCore keyOf entries index reasons).2 > 0
    · rw [if_pos hp]
      rcases locatePositionCore_conf_cases keyOf entries index reasons with h | h <;>
        rw [h] <;> norm_num
    · rw [if_neg hp]
      by_cases hk : (locateKeywordCore keyOf textOf entries reasons).2 > 0
      · rw [if_pos hk]
        rcases locateKeywordCore_bounds keyOf textOf entries reasons with ⟨h0, h1⟩
        exact ⟨h0, le_trans h1 (by norm_num)⟩
      · rw [if_neg hk]
        norm_num

/-- C5. Locator confidence bounds: for both the field locator and the
batch locator, the cascade's returned confidence always lies in [0, 1];
whenever the position strategy finds a reason whose reported span is
fully contained in some entry's offset range, it returns confidence
exactly 0.95; and the keyword strategy's confidence is always at most
0.85 (and non-negative). -/
theorem locator_confidence_bounds :
    (∀ (fields : List FieldInput) (fieldIndex : List (String × PartIndex))
        (reasons : List Reason),
        0 ≤ (locateViolationFields fields fieldIndex reasons).2.1 ∧
          (locateViolationFields fields fieldIndex reasons).2.1 ≤ 1) ∧
    (∀ (items : List BatchItem) (itemIndex : List (String × PartIndex))
        (reasons : List Reason),
        0 ≤ (locateBatchViolations items itemIndex reasons).2.1 ∧
          (locateBatchViolations items itemIndex reasons).2.1 ≤ 1) ∧
    (∀ (fields : List FieldInput) (fieldIndex : List (String × PartIndex))
        (reasons : List Reason) (reason : Reason) (raw : RawData) (field : FieldInput),
        reason ∈ reasons → reason.raw = some raw →
        (extractPosition raw).2.2 = true → field ∈ fields →
        ((lookupIndexD fieldIndex field.field).start : Int) ≤ (extractPosition raw).1 →
        (extractPosition raw).2.1 ≤ ((lookupIndexD fieldIndex field.field).stop : Int) →
        (locateByPosition fields fieldIndex reasons).2 = 95 / 100) ∧
    (∀ (items : List BatchItem) (itemIndex : List (String × PartIndex))
        (reasons : List Reason) (reason : Reason) (raw : RawData) (item : BatchItem),
        reason ∈ reasons → reason.raw = some raw →
        (extractPosition raw).2.2 = true → item ∈ items →
        ((lookupIndexD itemIndex item.bizID).start : Int) ≤ (extractPosition raw).1 →
        (extractPosition raw).2.1 ≤ ((lookupIndexD itemIndex item.bizID).stop : Int) →
        (locateBatchByPosition items itemIndex reasons).2 = 95 / 100) ∧
    (∀ (fields : List FieldInput) (reasons : List Reason),
        0 ≤ (locateByKeyword fields reasons).2 ∧
          (locateByKeyword fields reasons).2 ≤ 85 / 100) ∧
    (∀ (items : List BatchItem) (reasons : List Reason),
        0 ≤ (locateBatchByKeyword items reasons).2 ∧
          (locateBatchByKeyword items reasons).2 ≤ 85 / 100) := by
  refine ⟨?_, ?_, ?_, ?_, ?_, ?_⟩
  · intro fields fieldIndex reasons
    exact locateCascadeCore_bounds _ _ fields fieldIndex reasons
  · intro items itemIndex reasons
    exact locateCascadeCore_bounds _ _ items itemIndex reasons
  · intro fields fieldIndex reasons reason raw field h1 h2 h3 h4 h5 h6
    exact locatePositionCore_hit _ fields fieldIndex reasons reason raw field h1 h2 h3 h4 h5 h6
  · intro items itemIndex reasons reason raw item h1 h2 h3 h4 h5 h6
    exact locatePositionCore_hit _ items itemIndex reasons reason raw item h1 h2 h3 h4 h5 h6
  · intro fields reasons
    exact locateKeywordCore_bounds _ _ fields reasons
  · intro items reasons
    exact locateKeywordCore_bounds _ _ items reasons

/-- Witness for C5 at a concrete input: one field covering offsets
[0, 5) and one reason reporting span [1, 3) make the position strategy
return confidence exactly 0.95. -/
theorem locator_confidence_bounds_witness :
    (locateByPosition
        [⟨"desc", ['a', 'b', 'c', 'd', 'e'], BlockAction.unspecified, []⟩]
        [("desc", ⟨0, 5⟩)]
        [⟨"porn", "bad", "p", [],
          some ⟨some 1, some 3, none, none, [], [], [], []⟩⟩]).2 = 95 / 100 :=
  locator_confidence_bounds.2.2.1
    [⟨"desc", ['a', 'b', 'c', 'd', 'e'], BlockAction.unspecified, []⟩]
    [("desc", ⟨0, 5⟩)]
    [⟨"porn", "bad", "p", [], some ⟨some 1, some 3, none, none, [], [], [], []⟩⟩]
    ⟨"porn", "bad", "p", [], some ⟨some 1, some 3, none, none, [], [], [], []⟩⟩
    ⟨some 1, some 3, none, none, [], [], [], []⟩
    ⟨"desc", ['a', 'b', 'c', 'd', 'e'], BlockAction.unspecified, []⟩
    (by decide) (by decide) (by decide) (by decide) (by decide) (by decide)

theorem lookupAssoc_setAssoc_self (m : List (String × β)) (k : String) (v : β) :
    lookupAssoc (setAssoc m k v) k = some v := by
  induction m with
  | nil => simp [setAssoc, lookupAssoc]
  | cons kv rest ih =>
    by_cases h : (kv.1 == k) = true
    · unfold setAssoc
      rw [if_pos h]
      unfold lookupAssoc
      rw [if_pos (by simp)]
    · unfold setAssoc
      rw [if_neg h]
      unfold lookupAssoc
      rw [if_neg h]
      exact ih

theorem lookupAssoc_setAssoc_other (m : List (String × β)) (k k2 : String) (v : β)
    (h : (k == k2) = false) : lookupAssoc (setAssoc m k v) k2 = lookupAssoc m k2 := by
  induction m with
  | nil =>
    unfold setAssoc lookupAssoc
    rw [if_neg (by rw [h]; exact Bool.false_ne_true)]
    rfl
  | cons kv rest ih =>
    by_cases hk : (kv.1 == k) = true
    · have hkv1 : kv.1 = k := by simpa using hk
      unfold setAssoc
      rw [if_pos hk]
      unfold lookupAssoc
      rw [if_neg (by rw [h]; exact Bool.false_ne_true),
        if_neg (by rw [hkv1, h]; exact Bool.false_ne_true)]
    · unfold setAssoc
      rw [if_neg hk]
      unfold lookupAssoc
      by_cases hkv : (kv.1 == k2) = true
      · rw [if_pos hkv, if_pos hkv]
      · rw [if_neg hkv, if_neg hkv]
        exact ih

theorem fold_setAssoc_lookup (val : String → β) (items : List BatchItem) :
    ∀ (m : List (String × β)) (k : String),
      ((∃ it ∈ items, it.bizID = k) ∨ lookupAssoc m k = some (val k)) →
      lookupAssoc
        (items.foldl (fun acc it => setAssoc acc it.bizID (val it.bizID)) m) k =
        some (val k) := by
  induction items with
  | nil =>
    intro m k h
    rcases h with ⟨it, hmem, _⟩ | h
    · cases hmem
    · exact h
  | cons item rest ih =>
    intro m k h
    rw [List.foldl_cons]
    by_cases hk : item.bizID = k
    · refine ih (setAssoc m item.bizID (val item.bizID)) k (Or.inr ?_)
      rw [hk] at *
      exact lookupAssoc_setAssoc_self m k (val k)
    · rcases h with ⟨it, hmem, hbiz⟩ | h
      · rcases List.mem_cons.mp hmem with heq | hmem2
        · exact absurd (heq ▸ hbiz) hk
        · exact ih _ k (Or.inl ⟨it, hmem2, hbiz⟩)
      · refine ih _ k (Or.inr ?_)
        rw [lookupAssoc_setAssoc_other m item.bizID k (val item.bizID)
          (beq_eq_false_iff_ne.mpr hk)]
        exact h

theorem buildConservative_lookup (input : SubmitBatchInput) (outcome : FinalOutcome)
    (item : BatchItem) (hmem : item ∈ input.items) :
    lookupAssoc (buildConservativeBatchResult input outcome).results item.bizID =
      some ⟨item.bizID, outcome.decision, outcome.reasons, true, "conservative", 1⟩ :=
  fold_setAssoc_lookup
    (fun k => (⟨k, outcome.decision, outcome.reasons, true, "conservative", 1⟩ : BatchItemResult))
    input.items [] item.bizID (Or.inl ⟨item, hmem, rfl⟩)

/-- C3 (amended). With `DisableFallback = true` and a merged submission
returning an immediate block (or review) outcome, every item in the
batch is marked blocked with `LocatedBy = "conservative"` EXACTLY WHEN
the locator fails — its confidence is below `FallbackThreshold` or it
locates no items.  (When keyword or position evidence locates items
with confidence at or above the threshold, the located items are
blocked with the locator's method tag and the remaining items pass;
see the counterexample.) -/
theorem conservative_fallback_amended (submit : SubmitOracle)
    (input : SubmitBatchInput) (sv : SubmitView) (outcome : FinalOutcome)
    (hdf : input.disableFallback = true)
    (hsub : submit "_batch_" (mergeBatchItems input.items).1.merged = Except.ok sv)
    (himm : sv.immediate = some outcome)
    (hdec : outcome.decision = Decision.block ∨ outcome.decision = Decision.review)
    (hloc : ¬ ((locateBatchViolations input.items (mergeBatchItems input.items).2
          outcome.reasons).2.1 ≥ input.fallbackThreshold ∧
        (locateBatchViolations input.items (mergeBatchItems input.items).2
          outcome.reasons).1 ≠ [])) :
    submitBatchMerged submit input =
      Except.ok (buildConservativeBatchResult input outcome) ∧
    ∀ item ∈ input.items,
      lookupAssoc (buildConservativeBatchResult input outcome).results item.bizID =
        some ⟨item.bizID, outcome.decision, outcome.reasons, true, "conservative", 1⟩ := by
  constructor
  · have hpass : ¬ outcome.decision = Decision.pass := by
      rcases hdec with h | h <;> rw [h] <;> intro hc <;> cases hc
    unfold submitBatchMerged
    rw [hsub]
    simp only [himm, if_neg hpass, if_neg hloc, hdf, if_true]
  · intro item hmem
    exact buildConservative_lookup input outcome item hmem

/-- Witness for C3's amended theorem at a concrete input: two items,
`DisableFallback = true`, a merged block outcome with no locatable
evidence (empty reasons) — both items come back blocked with
`LocatedBy = "conservative"`. -/
theorem conservative_fallback_amended_witness :
    lookupAssoc
        (buildConservativeBatchResult
          ⟨"danmaku",
            [⟨"m1", "u", ['a'], BlockAction.unspecified⟩,
              ⟨"m2", "u", ['b'], BlockAction.unspecified⟩],
            "", 8 / 10, true, 10⟩
          ⟨Decision.block, "", "", [], 0⟩).results "m2" =
      some ⟨"m2", Decision.block, [], true, "conservative", 1⟩ :=
  (conservative_fallback_amended
      (fun _ _ => Except.ok ⟨some ⟨Decision.block, "", "", [], 0⟩, false⟩)
      ⟨"danmaku",
        [⟨"m1", "u", ['a'], BlockAction.unspecified⟩,
          ⟨"m2", "u", ['b'], BlockAction.unspecified⟩],
        "", 8 / 10, true, 10⟩
      ⟨some ⟨Decision.block, "", "", [], 0⟩, false⟩
      ⟨Decision.block, "", "", [], 0⟩
      rfl rfl rfl (Or.inl rfl)
      (by
        intro hcon
        apply hcon.2
        unfold locateBatchViolations locateCascadeCore
        rw [if_pos rfl])).2
    ⟨"m2", "u", ['b'], BlockAction.unspecified⟩ (by decide)

theorem locateKeywordCore_eval (keyOf : α → String) (textOf : α → GoStr)
    (entries : List α) (reasons : List Reason) (found : List (String × Nat)) (total : Nat)
    (hscan : keywordScan keyOf textOf entries reasons = (found, total))
    (hne : found ≠ []) (hpos : total > 0) :
    locateKeywordCore keyOf textOf entries reasons =
      (found.map (fun kv => kv.1),
        (if ((maxMatches found : Nat) : ℚ) / ((total : Nat) : ℚ) > 1 then 1
          else ((maxMatches found : Nat) : ℚ) / ((total : Nat) : ℚ)) * (85 / 100)) := by
  unfold locateKeywordCore
  rw [hscan]
  rw [if_pos ⟨hne, hpos⟩]

theorem locateCascadeCore_eval_keyword (keyOf : α → String) (textOf : α → GoStr)
    (entries : List α) (index : List (String × PartIndex)) (reasons : List Reason)
    (found : List String) (conf : ℚ)
    (hne : ¬ reasons = [])
    (hp : locatePositionCore keyOf entries index reasons = ([], 0))
    (hk : locateKeywordCore keyOf textOf entries reasons = (found, conf))
    (hc : conf > 0) :
    locateCascadeCore keyOf textOf entries index reasons = (found, conf, "keyword") := by
  unfold locateCascadeCore
  rw [if_neg hne, hp]
  rw [if_neg (by norm_num : ¬ ((([] : List String), (0 : ℚ)).2 > 0))]
  rw [hk, if_pos hc]

/-- Counterexample to C3 as stated: a SubmitBatch call with
`DisableFallback = true` whose merged submission returns an immediate
block outcome carrying keyword evidence (`HitTags = ["bad"]`, contained
in item m1's text). The keyword locator reaches confidence 0.85 ≥ 0.8
(the default threshold), so the batch does NOT go conservative: item m2
is marked `pass` with `LocatedBy = "keyword"`, contradicting the claim
that every item is blocked with `LocatedBy = "conservative"` regardless
of keyword evidence. -/
theorem conservative_fallback_counterexample :
    ((SubmitBatch
        (fun rid _ =>
          if rid == "_batch_" then
            Except.ok ⟨some ⟨Decision.block, "", "",
              [⟨"porn", "", "p", [['b', 'a', 'd']], none⟩], 0⟩, false⟩
          else Except.ok ⟨some ⟨Decision.pass, "", "", [], 0⟩, false⟩)
        ⟨"danmaku",
          [⟨"m1", "u", ['b', 'a', 'd'], BlockAction.unspecified⟩,
            ⟨"m2", "u", ['o', 'k'], BlockAction.unspecified⟩],
          "", 0, true, 0⟩).toOption.bind
      (fun r => lookupAssoc r.results "m2")) =
      some ⟨"m2", Decision.pass, [], false, "keyword", 1⟩ := by
  have hstep : SubmitBatch
      (fun rid _ =>
        if rid == "_batch_" then
          Except.ok ⟨some ⟨Decision.block, "", "",
            [⟨"porn", "", "p", [['b', 'a', 'd']], none⟩], 0⟩, false⟩
        else Except.ok ⟨some ⟨Decision.pass, "", "", [], 0⟩, false⟩)
      ⟨"danmaku",
        [⟨"m1", "u", ['b', 'a', 'd'], BlockAction.unspecified⟩,
          ⟨"m2", "u", ['o', 'k'], BlockAction.unspecified⟩],
        "", 0, true, 0⟩ =
      submitBatchMerged
        (fun rid _ =>
          if rid == "_batch_" then
            Except.ok ⟨some ⟨Decision.block, "", "",
              [⟨"porn", "", "p", [['b', 'a', 'd']], none⟩], 0⟩, false⟩
          else Except.ok ⟨some ⟨Decision.pass, "", "", [], 0⟩, false⟩)
        ⟨"danmaku",
          [⟨"m1", "u", ['b', 'a', 'd'], BlockAction.unspecified⟩,
            ⟨"m2", "u", ['o', 'k'], BlockAction.unspecified⟩],
          "", 8 / 10, true, 10⟩ := rfl
  have hscan : keywordScan (fun it : BatchItem => it.bizID) (fun it : BatchItem => it.text)
      [⟨"m1", "u", ['b', 'a', 'd'], BlockAction.unspecified⟩,
        ⟨"m2", "u", ['o', 'k'], BlockAction.unspecified⟩]
      [⟨"porn", "", "p", [['b', 'a', 'd']], none⟩] = ([("m1", 1)], 1) := by
    decide
  have hkey := locateKeywordCore_eval (fun it : BatchItem => it.bizID)
    (fun it : BatchItem => it.text)
    [⟨"m1", "u", ['b', 'a', 'd'], BlockAction.unspecified⟩,
      ⟨"m2", "u", ['o', 'k'], BlockAction.unspecified⟩]
    [⟨"porn", "", "p", [['b', 'a', 'd']], none⟩]
    [("m1", 1)] 1 hscan (by decide) (by decide)
  rw [show ([("m1", (1 : Nat))].map (fun kv => kv.1)) = ["m1"] from rfl] at hkey
  rw [show maxMatches [("m1", (1 : Nat))] = 1 from by decide] at hkey
  rw [if_neg (by norm_num : ¬ (((1 : Nat) : ℚ) / ((1 : Nat) : ℚ) > 1))] at hkey
  have hposf : locatePositionCore (fun it : BatchItem => it.bizID)
      [⟨"m1", "u", ['b', 'a', 'd'], BlockAction.unspecified⟩,
        ⟨"m2", "u", ['o', 'k'], BlockAction.unspecified⟩]
      (mergeBatchItems
        [⟨"m1", "u", ['b', 'a', 'd'], BlockAction.unspecified⟩,
          ⟨"m2", "u", ['o', 'k'], BlockAction.unspecified⟩]).2
      [⟨"porn", "", "p", [['b', 'a', 'd']], none⟩] = ([], 0) := by
    unfold locatePositionCore
    rw [if_pos (by decide)]
  have hcas : locateBatchViolations
      [⟨"m1", "u", ['b', 'a', 'd'], BlockAction.unspecified⟩,
        ⟨"m2", "u", ['o', 'k'], BlockAction.unspecified⟩]
      (mergeBatchItems
        [⟨"m1", "u", ['b', 'a', 'd'], BlockAction.unspecified⟩,
          ⟨"m2", "u", ['o', 'k'], BlockAction.unspecified⟩]).2
      [⟨"porn", "", "p", [['b', 'a', 'd']], none⟩] =
      (["m1"], ((1 : Nat) : ℚ) / ((1 : Nat) : ℚ) * (85 / 100), "keyword") := by
    unfold locateBatchViolations
    exact locateCascadeCore_eval_keyword _ _ _ _ _ _ _ (by decide) hposf hkey (by norm_num)
  have hmain : submitBatchMerged
      (fun rid _ =>
        if rid == "_batch_" then
          Except.ok ⟨some ⟨Decision.block, "", "",
            [⟨"porn", "", "p", [['b', 'a', 'd']], none⟩], 0⟩, false⟩
        else Except.ok ⟨some ⟨Decision.pass, "", "", [], 0⟩, false⟩)
      ⟨"danmaku",
        [⟨"m1", "u", ['b', 'a', 'd'], BlockAction.unspecified⟩,
          ⟨"m2", "u", ['o', 'k'], BlockAction.unspecified⟩],
        "", 8 / 10, true, 10⟩ =
      Except.ok (buildBatchResultFromLocation
        ⟨"danmaku",
          [⟨"m1", "u", ['b', 'a', 'd'], BlockAction.unspecified⟩,
            ⟨"m2", "u", ['o', 'k'], BlockAction.unspecified⟩],
          "", 8 / 10, true, 10⟩
        ["m1"] ⟨Decision.block, "", "", [⟨"porn", "", "p", [['b', 'a', 'd']], none⟩], 0⟩
        "keyword") := by
    unfold submitBatchMerged
    rw [show (fun (rid : String) (_ : GoStr) =>
        if rid == "_batch_" then
          Except.ok (⟨some ⟨Decision.block, "", "",
            [⟨"porn", "", "p", [['b', 'a', 'd']], none⟩], 0⟩, false⟩ : SubmitView)
        else Except.ok ⟨some ⟨Decision.pass, "", "", [], 0⟩, false⟩) "_batch_"
        (mergeBatchItems
          [⟨"m1", "u", ['b', 'a', 'd'], BlockAction.unspecified⟩,
            ⟨"m2", "u", ['o', 'k'], BlockAction.unspecified⟩]).1.merged =
      Except.ok (⟨some ⟨Decision.block, "", "",
        [⟨"porn", "", "p", [['b', 'a', 'd']], none⟩], 0⟩, false⟩ : SubmitView) from rfl]
    dsimp only
    rw [if_neg (by decide : ¬ (Decision.block = Decision.pass))]
    rw [hcas]
    dsimp only
    rw [if_pos ⟨by norm_num, by decide⟩]
  rw [hstep, hmain]
  decide

theorem findRow_sat (p : α → Bool) (l : List α) (x : α) (h : findRow p l = some x) :
    p x = true := by
  induction l with
  | nil => cases h
  | cons y l ih =>
    unfold findRow at h
    by_cases hy : p y = true
    · rw [if_pos hy] at h
      cases h
      exact hy
    · rw [if_neg hy] at h
      exact ih h

theorem findRow_map (p : α → Bool) (g : α → α) (hp : ∀ x, p (g x) = p x) (l : List α) :
    findRow p (l.map g) = (findRow p l).map g := by
  induction l with
  | nil => rfl
  | cons y l ih =>
    rw [List.map_cons]
    unfold findRow
    by_cases hy : p y = true
    · rw [if_pos (by rw [hp]; exact hy), if_pos hy]
      rfl
    · rw [if_neg (show ¬ p (g y) = true by rw [hp]; exact hy), if_neg hy]
      exact ih

theorem filter_map_comm (p : α → Bool) (g : α → α) (hp : ∀ x, p (g x) = p x) (l : List α) :
    (l.map g).filter p = (l.filter p).map g := by
  induction l with
  | nil => rfl
  | cons y l ih =>
    rw [List.map_cons]
    by_cases hy : p y = true
    · rw [List.filter_cons_of_pos (by rw [hp]; exact hy), List.filter_cons_of_pos hy,
        List.map_cons, ih]
    · rw [List.filter_cons_of_neg (show ¬ p (g y) = true by rw [hp]; exact hy),
        List.filter_cons_of_neg hy, ih]

theorem map_idem_list (g : α → α) (hg : ∀ x, g (g x) = g x) (l : List α) :
    (l.map g).map g = l.map g := by
  induction l with
  | nil => rfl
  | cons y l ih => rw [List.map_cons, List.map_cons, hg, ih]

theorem map_comm_list (f g : α → α) (h : ∀ x, f (g x) = g (f x)) (l : List α) :
    (l.map g).map f = (l.map f).map g := by
  induction l with
  | nil => rfl
  | cons y l ih =>
    rw [List.map_cons, List.map_cons, List.map_cons, List.map_cons, h, ih]

theorem setBizDecision_id (id : Nat) (d : Decision) (br : BizReview) :
    (setBizDecision id d br).id = br.id := by
  unfold setBizDecision
  by_cases h : (br.id == id) = true
  · rw [if_pos h]
  · rw [if_neg h]

theorem setBizStatus_id (id : Nat) (st : ReviewStatus) (br : BizReview) :
    (setBizStatus id st br).id = br.id := by
  unfold setBizStatus
  by_cases h : (br.id == id) = true
  · rw [if_pos h]
  · rw [if_neg h]

theorem setResourceOutcome_id (id : Nat) (o : FinalOutcome) (rr : ResourceReview) :
    (setResourceOutcome id o rr).id = rr.id := by
  unfold setResourceOutcome
  by_cases h : (rr.id == id) = true
  · rw [if_pos h]
  · rw [if_neg h]

theorem setResourceOutcome_bizReviewID (id : Nat) (o : FinalOutcome) (rr : ResourceReview) :
    (setResourceOutcome id o rr).bizReviewID = rr.bizReviewID := by
  unfold setResourceOutcome
  by_cases h : (rr.id == id) = true
  · rw [if_pos h]
  · rw [if_neg h]

theorem setTaskResult_idem (taskID : Nat) (done : Bool) (result : Option ReviewResult)
    (pt : ProviderTask) :
    setTaskResult taskID done result (setTaskResult taskID done result pt) =
      setTaskResult taskID done result pt := by
  unfold setTaskResult
  by_cases h : (pt.id == taskID) = true <;> simp [h]

theorem setResourceOutcome_idem (id : Nat) (o : FinalOutcome) (rr : ResourceReview) :
    setResourceOutcome id o (setResourceOutcome id o rr) = setResourceOutcome id o rr := by
  unfold setResourceOutcome
  by_cases h : (rr.id == id) = true <;> simp [h]

theorem setBizDecision_idem (id : Nat) (d : Decision) (br : BizReview) :
    setBizDecision id d (setBizDecision id d br) = setBizDecision id d br := by
  unfold setBizDecision
  by_cases h : (br.id == id) = true <;> simp [h]

theorem setBizStatus_idem (id : Nat) (st : ReviewStatus) (br : BizReview) :
    setBizStatus id st (setBizStatus id st br) = setBizStatus id st br := by
  unfold setBizStatus
  by_cases h : (br.id == id) = true <;> simp [h]

theorem setBizDecision_setBizStatus_comm (id id2 : Nat) (d : Decision) (st : ReviewStatus)
    (br : BizReview) :
    setBizDecision id d (setBizStatus id2 st br) =
      setBizStatus id2 st (setBizDecision id d br) := by
  unfold setBizDecision setBizStatus
  by_cases h1 : (br.id == id) = true <;> by_cases h2 : (br.id == id2) = true <;> simp [h1, h2]

/-- C10. When the list of ResourceReviews for a BizReview is empty (as
happens when every resource of a Submit call is skipped by dedup, so no
ResourceReview row is created), `aggregateBizDecision` sets the biz
decision to pass and flips the status to done. -/
theorem aggregate_empty_biz_pass_done (bizReviewID : Nat) (s : StoreState) (br : BizReview)
    (hempty : listResourceReviewsByBizReview bizReviewID s = [])
    (hbr : getBizReview bizReviewID s = some br) :
    getBizReview bizReviewID (aggregateBizDecisionS bizReviewID s) =
      some { br with decision := Decision.pass, status := ReviewStatus.done } := by
  have hbr2 : findRow (fun b : BizReview => b.id == bizReviewID) s.bizReviews = some br := hbr
  have hid : (br.id == bizReviewID) = true :=
    findRow_sat (fun b : BizReview => b.id == bizReviewID) s.bizReviews br hbr2
  have hac : bizAllComplete [] = true := by decide
  have hfd : bizFinalDecision [] = Decision.pass := by decide
  unfold aggregateBizDecisionS
  rw [hempty]
  rw [if_pos hac, hfd]
  unfold getBizReview updateBizStatus updateBizDecision
  rw [findRow_map _ _ (fun x => by simp only [setBizStatus_id]),
    findRow_map _ _ (fun x => by simp only [setBizDecision_id])]
  rw [hbr2]
  unfold setBizDecision setBizStatus
  have hideq : br.id = bizReviewID := by simpa using hid
  simp [hideq]

/-- Witness for C10 at a concrete input: a store holding one BizReview
(id 1, decision pending, status running) and no resource reviews; after
aggregation the review is pass/done. -/
theorem aggregate_empty_biz_pass_done_witness :
    getBizReview 1
        (aggregateBizDecisionS 1
          ⟨[⟨1, "note_body", "n1", "body", Decision.pending, ReviewStatus.running⟩],
            [], [], [], [], [], 2⟩) =
      some ⟨1, "note_body", "n1", "body", Decision.pass, ReviewStatus.done⟩ :=
  aggregate_empty_biz_pass_done 1
    ⟨[⟨1, "note_body", "n1", "body", Decision.pending, ReviewStatus.running⟩],
      [], [], [], [], [], 2⟩
    ⟨1, "note_body", "n1", "body", Decision.pending, ReviewStatus.running⟩
    (by decide) (by decide)

theorem handleViolation_existing (biz : BizContext) (r : Resource) (outcome : FinalOutcome)
    (s : StoreState) (existing : CensorBinding)
    (hex : getBinding biz.bizType biz.bizID biz.field s = some existing) :
    handleViolation biz r outcome s =
      if existing.decision ≠ outcome.decision ∨
          existing.replacePolicy ≠ outcome.replacePolicy ∨
          existing.violationRefID ≠ (saveViolationSnapshot biz r outcome s).1 then
        ((saveViolationSnapshot biz r outcome s).1,
          upsertBinding
            { newBinding biz r outcome (saveViolationSnapshot biz r outcome s).1 with
              reviewRevision := existing.reviewRevision + 1 }
            (createBindingHistory
              (historyRow biz r outcome (saveViolationSnapshot biz r outcome s).1
                (existing.reviewRevision + 1))
              (saveViolationSnapshot biz r outcome s).2))
      else
        ((saveViolationSnapshot biz r outcome s).1,
          upsertBinding
            { newBinding biz r outcome (saveViolationSnapshot biz r outcome s).1 with
              reviewRevision := existing.reviewRevision + 1 }
            (saveViolationSnapshot biz r outcome s).2) := by
  have hex2 : getBinding biz.bizType biz.bizID biz.field
      (saveViolationSnapshot biz r outcome s).2 = some existing := hex
  unfold handleViolation
  rw [hex2]

theorem upsertBinding_histories (b : CensorBinding) (t : StoreState) :
    (upsertBinding b t).histories = t.histories := by
  unfold upsertBinding
  by_cases h1 : t.bindings.any (bindingKeyIs b.bizType b.bizID b.field) = true
  · rw [if_pos h1]
  · rw [if_neg h1]
    by_cases h2 : (b.id == 0) = true
    · rw [if_pos h2]
    · rw [if_neg h2]

/-- C9. During violation handling with an existing CensorBinding, if
the old binding agrees with the new one on decision, replace policy,
replace value, and violation reference (the fresh snapshot id
`s.nextID`), then no CensorBindingHistory row is written; and whenever
a history row is written, the old binding differs from the new one in
at least one of those four fields. -/
theorem binding_history_only_on_change (biz : BizContext) (r : Resource)
    (outcome : FinalOutcome) (s : StoreState) (existing : CensorBinding)
    (hex : getBinding biz.bizType biz.bizID biz.field s = some existing) :
    ((existing.decision = outcome.decision ∧
        existing.replacePolicy = outcome.replacePolicy ∧
        existing.replaceValue = outcome.replaceValue ∧
        existing.violationRefID = s.nextID) →
      ((handleViolation biz r outcome s).2).histories = s.histories) ∧
    (((handleViolation biz r outcome s).2).histories ≠ s.histories →
      (existing.decision ≠ outcome.decision ∨
        existing.replacePolicy ≠ outcome.replacePolicy ∨
        existing.replaceValue ≠ outcome.replaceValue ∨
        existing.violationRefID ≠ s.nextID)) := by
  have hred := handleViolation_existing biz r outcome s existing hex
  have hsp1 : (saveViolationSnapshot biz r outcome s).1 = s.nextID := rfl
  by_cases hC : existing.decision ≠ outcome.decision ∨
      existing.replacePolicy ≠ outcome.replacePolicy ∨
      existing.violationRefID ≠ (saveViolationSnapshot biz r outcome s).1
  · constructor
    · rintro ⟨h1, h2, _, h4⟩
      exfalso
      rcases hC with h | h | h
      · exact h h1
      · exact h h2
      · rw [hsp1] at h
        exact h h4
    · intro _
      rcases hC with h | h | h
      · exact Or.inl h
      · exact Or.inr (Or.inl h)
      · rw [hsp1] at h
        exact Or.inr (Or.inr (Or.inr h))
  · rw [hred, if_neg hC]
    constructor
    · intro _
      rw [upsertBinding_histories]
      rfl
    · intro hne
      exfalso
      apply hne
      rw [upsertBinding_histories]
      rfl

/-- Witness for C9 at a concrete input: the existing binding already
carries the same decision, replace policy, replace value, and a
violation reference equal to the id the fresh snapshot will get, so no
history row is written. -/
theorem binding_history_only_on_change_witness :
    ((handleViolation ⟨"note_body", "n1", "body"⟩
        ⟨"res1", ResourceType.text, ['a'], "", "h1"⟩
        ⟨Decision.block, "", "", [], 0⟩
        ⟨[], [], [],
          [⟨5, "note_body", "n1", "body", "res1", ResourceType.text, "h1", 0,
            Decision.block, "", "", 7, 3⟩],
          [], [], 7⟩).2).histories = [] :=
  (binding_history_only_on_change ⟨"note_body", "n1", "body"⟩
      ⟨"res1", ResourceType.text, ['a'], "", "h1"⟩
      ⟨Decision.block, "", "", [], 0⟩
      ⟨[], [], [],
        [⟨5, "note_body", "n1", "body", "res1", ResourceType.text, "h1", 0,
          Decision.block, "", "", 7, 3⟩],
        [], [], 7⟩
      ⟨5, "note_body", "n1", "body", "res1", ResourceType.text, "h1", 0,
        Decision.block, "", "", 7, 3⟩
      (by decide)).1 ⟨rfl, rfl, rfl, rfl⟩

theorem upsertBinding_resourceReviews (b : CensorBinding) (t : StoreState) :
    (upsertBinding b t).resourceReviews = t.resourceReviews := by
  unfold upsertBinding
  by_cases h1 : t.bindings.any (bindingKeyIs b.bizType b.bizID b.field) = true
  · rw [if_pos h1]
  · rw [if_neg h1]
    by_cases h2 : (b.id == 0) = true
    · rw [if_pos h2]
    · rw [if_neg h2]

theorem upsertBinding_providerTasks (b : CensorBinding) (t : StoreState) :
    (upsertBinding b t).providerTasks = t.providerTasks := by
  unfold upsertBinding
  by_cases h1 : t.bindings.any (bindingKeyIs b.bizType b.bizID b.field) = true
  · rw [if_pos h1]
  · rw [if_neg h1]
    by_cases h2 : (b.id == 0) = true
    · rw [if_pos h2]
    · rw [if_neg h2]

theorem upsertBinding_bizReviews (b : CensorBinding) (t : StoreState) :
    (upsertBinding b t).bizReviews = t.bizReviews := by
  unfold upsertBinding
  by_cases h1 : t.bindings.any (bindingKeyIs b.bizType b.bizID b.field) = true
  · rw [if_pos h1]
  · rw [if_neg h1]
    by_cases h2 : (b.id == 0) = true
    · rw [if_pos h2]
    · rw [if_neg h2]

theorem handleViolation_resourceReviews (biz : BizContext) (r : Resource)
    (outcome : FinalOutcome) (s : StoreState) :
    ((handleViolation biz r outcome s).2).resourceReviews = s.resourceReviews := by
  cases hb : getBinding biz.bizType biz.bizID biz.field s with
  | none =>
    have hb2 : getBinding biz.bizType biz.bizID biz.field
        (saveViolationSnapshot biz r outcome s).2 = none := hb
    unfold handleViolation
    rw [hb2]
    simp only [upsertBinding_resourceReviews]
    rfl
  | some existing =>
    rw [handleViolation_existing biz r outcome s existing hb]
    by_cases hC : existing.decision ≠ outcome.decision ∨
        existing.replacePolicy ≠ outcome.replacePolicy ∨
        existing.violationRefID ≠ (saveViolationSnapshot biz r outcome s).1
    · rw [if_pos hC]
      simp only [upsertBinding_resourceReviews]
      rfl
    · rw [if_neg hC]
      simp only [upsertBinding_resourceReviews]
      rfl

theorem handleViolation_providerTasks (biz : BizContext) (r : Resource)
    (outcome : FinalOutcome) (s : StoreState) :
    ((handleViolation biz r outcome s).2).providerTasks = s.providerTasks := by
  cases hb : getBinding biz.bizType biz.bizID biz.field s with
  | none =>
    have hb2 : getBinding biz.bizType biz.bizID biz.field
        (saveViolationSnapshot biz r outcome s).2 = none := hb
    unfold handleViolation
    rw [hb2]
    simp only [upsertBinding_providerTasks]
    rfl
  | some existing =>
    rw [handleViolation_existing biz r outcome s existing hb]
    by_cases hC : existing.decision ≠ outcome.decision ∨
        existing.replacePolicy ≠ outcome.replacePolicy ∨
        existing.violationRefID ≠ (saveViolationSnapshot biz r outcome s).1
    · rw [if_pos hC]
      simp only [upsertBinding_providerTasks]
      rfl
    · rw [if_neg hC]
      simp only [upsertBinding_providerTasks]
      rfl

theorem handleViolation_bizReviews (biz : BizContext) (r : Resource)
    (outcome : FinalOutcome) (s : StoreState) :
    ((handleViolation biz r outcome s).2).bizReviews = s.bizReviews := by
  cases hb : getBinding biz.bizType biz.bizID biz.field s with
  | none =>
    have hb2 : getBinding biz.bizType biz.bizID biz.field
        (saveViolationSnapshot biz r outcome s).2 = none := hb
    unfold handleViolation
    rw [hb2]
    simp only [upsertBinding_bizReviews]
    rfl
  | some existing =>
    rw [handleViolation_existing biz r outcome s existing hb]
    by_cases hC : existing.decision ≠ outcome.decision ∨
        existing.replacePolicy ≠ outcome.replacePolicy ∨
        existing.violationRefID ≠ (saveViolationSnapshot biz r outcome s).1
    · rw [if_pos hC]
      simp only [upsertBinding_bizReviews]
      rfl
    · rw [if_neg hC]
      simp only [upsertBinding_bizReviews]
      rfl

theorem aggregate_resourceReviews (id : Nat) (s : StoreState) :
    (aggregateBizDecisionS id s).resourceReviews = s.resourceReviews := by
  unfold aggregateBizDecisionS
  by_cases h : bizAllComplete (listResourceReviewsByBizReview id s) = true
  · rw [if_pos h]
    rfl
  · rw [if_neg h]
    rfl

theorem aggregate_providerTasks (id : Nat) (s : StoreState) :
    (aggregateBizDecisionS id s).providerTasks = s.providerTasks := by
  unfold aggregateBizDecisionS
  by_cases h : bizAllComplete (listResourceReviewsByBizReview id s) = true
  · rw [if_pos h]
    rfl
  · rw [if_neg h]
    rfl

theorem aggregate_bindings (id : Nat) (s : StoreState) :
    (aggregateBizDecisionS id s).bindings = s.bindings := by
  unfold aggregateBizDecisionS
  by_cases h : bizAllComplete (listResourceReviewsByBizReview id s) = true
  · rw [if_pos h]
    rfl
  · rw [if_neg h]
    rfl

theorem submitResource_exec_error (env : ClientEnv) (biz : BizContext) (bizReviewID : Nat)
    (acc : SubmitResultE × StoreState) (r : Resource) (e : String)
    (hded : env.opts.enableDedup = false)
    (hhash : (r.contentHash == "") = false)
    (hexec : env.exec r = Except.error e) :
    submitResource env biz bizReviewID acc r =
      ({ acc.1 with
          resourceReviewIDs := setAssoc acc.1.resourceReviewIDs r.resourceID acc.2.nextID },
        recordError acc.2.nextID e (createResourceReview bizReviewID r acc.2).2) := by
  unfold submitResource
  simp only [hhash, hded, hexec, Bool.false_eq_true, if_false]
  rfl

theorem submitResource_exec_sync (env : ClientEnv) (biz : BizContext) (bizReviewID : Nat)
    (acc : SubmitResultE × StoreState) (r : Resource) (pr : PipelineResult)
    (o : FinalOutcome)
    (hded : env.opts.enableDedup = false)
    (hhash : (r.contentHash == "") = false)
    (hexec : env.exec r = Except.ok pr)
    (hm : pr.mode = "sync") (hf : pr.finalOutcome = some o) :
    submitResource env biz bizReviewID acc r =
      ({ acc.1 with
          resourceReviewIDs := setAssoc acc.1.resourceReviewIDs r.resourceID acc.2.nextID,
          immediateResults := setAssoc acc.1.immediateResults r.resourceID o },
        if o.decision = Decision.block ∨ o.decision = Decision.review then
          (handleViolation biz r o
            (updateResourceOutcome acc.2.nextID o
              (createProviderTasks env.opts acc.2.nextID pr
                (createResourceReview bizReviewID r acc.2).2))).2
        else
          updateResourceOutcome acc.2.nextID o
            (createProviderTasks env.opts acc.2.nextID pr
              (createResourceReview bizReviewID r acc.2).2)) := by
  unfold submitResource
  simp only [hhash, hded, hexec, hm, hf, Bool.false_eq_true, if_false,
    beq_self_eq_true, if_true]
  rfl

theorem updateResourceOutcome_resourceReviews (id : Nat) (outcome : FinalOutcome)
    (s : StoreState) :
    (updateResourceOutcome id outcome s).resourceReviews =
      s.resourceReviews.map (setResourceOutcome id outcome) := rfl

theorem createProviderTasks_resourceReviews (opts : ClientOpts) (id : Nat)
    (pr : PipelineResult) (s : StoreState) :
    (createProviderTasks opts id pr s).resourceReviews = s.resourceReviews := by
  unfold createProviderTasks
  by_cases h : pr.secondaryTaskID ≠ ""
  · rw [if_pos h]
    rfl
  · rw [if_neg h]
    rfl

/-- C8: within one Submit call over several resources, a pipeline failure
for one resource is recorded as an error-decision outcome on that
resource's ResourceReview, the sibling resource is still processed to its
own outcome, and the Submit call completes with `Except.ok` rather than
returning the provider error. -/
theorem submit_isolates_provider_error (env : ClientEnv) (biz : BizContext)
    (r1 r2 : Resource) (e : String) (pr : PipelineResult) (o : FinalOutcome)
    (hded : env.opts.enableDedup = false)
    (hh1 : (r1.contentHash == "") = false)
    (hh2 : (r2.contentHash == "") = false)
    (hex1 : env.exec r1 = Except.error e)
    (hex2 : env.exec r2 = Except.ok pr)
    (hm : pr.mode = "sync") (hf : pr.finalOutcome = some o) :
    ∃ res s', Submit env ⟨biz, [r1, r2], false⟩ ⟨[], [], [], [], [], [], 1⟩ =
        Except.ok (res, s') ∧
      (∃ rr1, getResourceReview 2 s' = some rr1 ∧ rr1.decision = Decision.error ∧
        rr1.resourceID = r1.resourceID) ∧
      (∃ rr2, getResourceReview 3 s' = some rr2 ∧ rr2.decision = o.decision ∧
        rr2.resourceID = r2.resourceID ∧ rr2.outcome = some o) ∧
      lookupAssoc res.immediateResults r2.resourceID = some o := by
  have hS : Submit env ⟨biz, [r1, r2], false⟩ ⟨[], [], [], [], [], [], 1⟩ =
      Except.ok
        ((⟨1, setAssoc (setAssoc [] r1.resourceID 2) r2.resourceID 3,
            setAssoc [] r2.resourceID o, false⟩ : SubmitResultE),
          aggregateBizDecisionS 1
            (if o.decision = Decision.block ∨ o.decision = Decision.review then
              (handleViolation biz r2 o
                (updateResourceOutcome 3 o
                  (createProviderTasks env.opts 3 pr
                    (createResourceReview 1 r2
                      (recordError 2 e
                        (createResourceReview 1 r1
                          ⟨[⟨1, biz.bizType, biz.bizID, biz.field, Decision.pending,
                              ReviewStatus.running⟩], [], [], [], [], [], 2⟩).2)).2))).2
            else
              updateResourceOutcome 3 o
                (createProviderTasks env.opts 3 pr
                  (createResourceReview 1 r2
                    (recordError 2 e
                      (createResourceReview 1 r1
                        ⟨[⟨1, biz.bizType, biz.bizID, biz.field, Decision.pending,
                            ReviewStatus.running⟩], [], [], [], [], [], 2⟩).2)).2))) := by
    have h0 : Submit env ⟨biz, [r1, r2], false⟩ ⟨[], [], [], [], [], [], 1⟩ =
        Except.ok
          ((submitResource env biz 1
              (submitResource env biz 1
                (⟨1, [], [], false⟩,
                  ⟨[⟨1, biz.bizType, biz.bizID, biz.field, Decision.pending,
                      ReviewStatus.running⟩], [], [], [], [], [], 2⟩) r1) r2).1,
            aggregateBizDecisionS 1
              (submitResource env biz 1
                (submitResource env biz 1
                  (⟨1, [], [], false⟩,
                    ⟨[⟨1, biz.bizType, biz.bizID, biz.field, Decision.pending,
                        ReviewStatus.running⟩], [], [], [], [], [], 2⟩) r1) r2).2) := rfl
    rw [submitResource_exec_error env biz 1
        (⟨1, [], [], false⟩,
          ⟨[⟨1, biz.bizType, biz.bizID, biz.field, Decision.pending,
              ReviewStatus.running⟩], [], [], [], [], [], 2⟩) r1 e hded hh1 hex1] at h0
    rw [submitResource_exec_sync env biz 1 _ r2 pr o hded hh2 hex2 hm hf] at h0
    exact h0
  refine ⟨_, _, hS, ?_, ?_, ?_⟩
  · refine ⟨⟨2, 1, r1.resourceID, r1.type, r1.contentHash, r1.contentText, r1.contentURL,
        Decision.error, some ⟨Decision.error, "", "", [⟨"error", e, "", [], none⟩], 0⟩⟩,
      ?_, rfl, rfl⟩
    unfold getResourceReview
    rw [aggregate_resourceReviews]
    by_cases hd : o.decision = Decision.block ∨ o.decision = Decision.review
    · rw [if_pos hd, handleViolation_resourceReviews, updateResourceOutcome_resourceReviews,
          createProviderTasks_resourceReviews]
      rfl
    · rw [if_neg hd, updateResourceOutcome_resourceReviews,
          createProviderTasks_resourceReviews]
      rfl
  · refine ⟨⟨3, 1, r2.resourceID, r2.type, r2.contentHash, r2.contentText, r2.contentURL,
        o.decision, some o⟩, ?_, rfl, rfl, rfl⟩
    unfold getResourceReview
    rw [aggregate_resourceReviews]
    by_cases hd : o.decision = Decision.block ∨ o.decision = Decision.review
    · rw [if_pos hd, handleViolation_resourceReviews, updateResourceOutcome_resourceReviews,
          createProviderTasks_resourceReviews]
      rfl
    · rw [if_neg hd, updateResourceOutcome_resourceReviews,
          createProviderTasks_resourceReviews]
      rfl
  · exact lookupAssoc_setAssoc_self [] r2.resourceID o

theorem submit_isolates_provider_error_witness :
    sampleEnv.opts.enableDedup = false ∧
    (sampleTextResource.contentHash == "") = false ∧
    (sampleImageResource.contentHash == "") = false ∧
    sampleEnv.exec sampleTextResource = Except.error "boom" ∧
    sampleEnv.exec sampleImageResource = Except.ok samplePipelineResult ∧
    samplePipelineResult.mode = "sync" ∧
    samplePipelineResult.finalOutcome = some sampleOutcome ∧
    (∃ res s', Submit sampleEnv ⟨⟨"bt", "b1", "f"⟩,
          [sampleTextResource, sampleImageResource], false⟩
        ⟨[], [], [], [], [], [], 1⟩ = Except.ok (res, s') ∧
      (∃ rr1, getResourceReview 2 s' = some rr1 ∧ rr1.decision = Decision.error ∧
        rr1.resourceID = sampleTextResource.resourceID) ∧
      (∃ rr2, getResourceReview 3 s' = some rr2 ∧
        rr2.decision = sampleOutcome.decision ∧
        rr2.resourceID = sampleImageResource.resourceID ∧
        rr2.outcome = some sampleOutcome) ∧
      lookupAssoc res.immediateResults sampleImageResource.resourceID =
        some sampleOutcome) :=
  ⟨rfl, rfl, rfl, rfl, rfl, rfl, rfl,
    submit_isolates_provider_error sampleEnv ⟨"bt", "b1", "f"⟩ sampleTextResource
      sampleImageResource "boom" samplePipelineResult sampleOutcome
      rfl rfl rfl rfl rfl rfl rfl⟩

theorem updateBizDecision_snd_fix (id : Nat) (d : Decision) (t : StoreState)
    (h : List.map (setBizDecision id d) t.bizReviews = t.bizReviews) :
    (updateBizDecision id d t).2 = t := by
  show { t with bizReviews := List.map (setBizDecision id d) t.bizReviews } = t
  rw [h]

theorem updateBizStatus_fix (id : Nat) (st : ReviewStatus) (t : StoreState)
    (h : List.map (setBizStatus id st) t.bizReviews = t.bizReviews) :
    updateBizStatus id st t = t := by
  show { t with bizReviews := List.map (setBizStatus id st) t.bizReviews } = t
  rw [h]

theorem updateProviderTaskResult_fix (taskID : Nat) (d : Bool) (res : Option ReviewResult)
    (t : StoreState)
    (h : List.map (setTaskResult taskID d res) t.providerTasks = t.providerTasks) :
    updateProviderTaskResult taskID d res t = t := by
  show { t with providerTasks := List.map (setTaskResult taskID d res) t.providerTasks } = t
  rw [h]

theorem updateResourceOutcome_fix (id : Nat) (o : FinalOutcome) (t : StoreState)
    (h : List.map (setResourceOutcome id o) t.resourceReviews = t.resourceReviews) :
    updateResourceOutcome id o t = t := by
  show { t with resourceReviews := List.map (setResourceOutcome id o) t.resourceReviews } = t
  rw [h]

theorem aggregateBizDecisionS_eq_pos (id : Nat) (s : StoreState)
    (hc : bizAllComplete (listResourceReviewsByBizReview id s) = true) :
    aggregateBizDecisionS id s =
      updateBizStatus id ReviewStatus.done
        (updateBizDecision id (bizFinalDecision (listResourceReviewsByBizReview id s)) s).2 := by
  unfold aggregateBizDecisionS
  rw [if_pos hc]

theorem aggregateBizDecisionS_eq_neg (id : Nat) (s : StoreState)
    (hc : ¬ bizAllComplete (listResourceReviewsByBizReview id s) = true) :
    aggregateBizDecisionS id s =
      (updateBizDecision id (bizFinalDecision (listResourceReviewsByBizReview id s)) s).2 := by
  unfold aggregateBizDecisionS
  rw [if_neg hc]

theorem agg_core_pos_idem (id : Nat) (d : Decision) (s : StoreState) :
    updateBizStatus id ReviewStatus.done
      (updateBizDecision id d
        (updateBizStatus id ReviewStatus.done (updateBizDecision id d s).2)).2 =
      updateBizStatus id ReviewStatus.done (updateBizDecision id d s).2 := by
  have h1 : (updateBizDecision id d
      (updateBizStatus id ReviewStatus.done (updateBizDecision id d s).2)).2 =
      updateBizStatus id ReviewStatus.done (updateBizDecision id d s).2 := by
    refine updateBizDecision_snd_fix id d _ ?_
    show List.map (setBizDecision id d)
        (List.map (setBizStatus id ReviewStatus.done)
          (List.map (setBizDecision id d) s.bizReviews)) =
      List.map (setBizStatus id ReviewStatus.done) (List.map (setBizDecision id d) s.bizReviews)
    rw [map_comm_list (setBizDecision id d) (setBizStatus id ReviewStatus.done)
        (setBizDecision_setBizStatus_comm id id d ReviewStatus.done)
        (List.map (setBizDecision id d) s.bizReviews),
      map_idem_list (setBizDecision id d) (setBizDecision_idem id d) s.bizReviews]
  rw [h1]
  refine updateBizStatus_fix id ReviewStatus.done _ ?_
  show List.map (setBizStatus id ReviewStatus.done)
      (List.map (setBizStatus id ReviewStatus.done)
        (List.map (setBizDecision id d) s.bizReviews)) =
    List.map (setBizStatus id ReviewStatus.done) (List.map (setBizDecision id d) s.bizReviews)
  rw [map_idem_list (setBizStatus id ReviewStatus.done) (setBizStatus_idem id ReviewStatus.done)
      (List.map (setBizDecision id d) s.bizReviews)]

theorem agg_core_neg_idem (id : Nat) (d : Decision) (s : StoreState) :
    (updateBizDecision id d (updateBizDecision id d s).2).2 = (updateBizDecision id d s).2 := by
  refine updateBizDecision_snd_fix id d _ ?_
  show List.map (setBizDecision id d) (List.map (setBizDecision id d) s.bizReviews) =
    List.map (setBizDecision id d) s.bizReviews
  rw [map_idem_list (setBizDecision id d) (setBizDecision_idem id d) s.bizReviews]

theorem listResourceReviews_aggregate (id : Nat) (s : StoreState) :
    listResourceReviewsByBizReview id (aggregateBizDecisionS id s) =
      listResourceReviewsByBizReview id s := by
  unfold listResourceReviewsByBizReview
  rw [aggregate_resourceReviews]

theorem aggregate_idem (id : Nat) (s : StoreState) :
    aggregateBizDecisionS id (aggregateBizDecisionS id s) = aggregateBizDecisionS id s := by
  by_cases hc : bizAllComplete (listResourceReviewsByBizReview id s) = true
  · have hc2 : bizAllComplete
        (listResourceReviewsByBizReview id (aggregateBizDecisionS id s)) = true := by
      rw [listResourceReviews_aggregate]
      exact hc
    rw [aggregateBizDecisionS_eq_pos id (aggregateBizDecisionS id s) hc2,
      listResourceReviews_aggregate, aggregateBizDecisionS_eq_pos id s hc]
    exact agg_core_pos_idem id (bizFinalDecision (listResourceReviewsByBizReview id s)) s
  · have hc2 : ¬ bizAllComplete
        (listResourceReviewsByBizReview id (aggregateBizDecisionS id s)) = true := by
      rw [listResourceReviews_aggregate]
      exact hc
    rw [aggregateBizDecisionS_eq_neg id (aggregateBizDecisionS id s) hc2,
      listResourceReviews_aggregate, aggregateBizDecisionS_eq_neg id s hc]
    exact agg_core_neg_idem id (bizFinalDecision (listResourceReviewsByBizReview id s)) s

theorem getBizReview_aggregate (id : Nat) (s : StoreState) (br : BizReview)
    (h : getBizReview id s = some br) :
    ∃ br2, getBizReview id (aggregateBizDecisionS id s) = some br2 := by
  have h' : findRow (fun br => br.id == id) s.bizReviews = some br := h
  by_cases hc : bizAllComplete (listResourceReviewsByBizReview id s) = true
  · refine ⟨setBizStatus id ReviewStatus.done
      (setBizDecision id (bizFinalDecision (listResourceReviewsByBizReview id s)) br), ?_⟩
    rw [aggregateBizDecisionS_eq_pos id s hc]
    unfold getBizReview
    show findRow (fun br => br.id == id)
        (List.map (setBizStatus id ReviewStatus.done)
          (List.map (setBizDecision id (bizFinalDecision (listResourceReviewsByBizReview id s)))
            s.bizReviews)) = _
    rw [findRow_map (fun br => br.id == id) (setBizStatus id ReviewStatus.done)
        (fun x => by simp only [setBizStatus_id])
        (List.map (setBizDecision id (bizFinalDecision (listResourceReviewsByBizReview id s)))
          s.bizReviews),
      findRow_map (fun br => br.id == id)
        (setBizDecision id (bizFinalDecision (listResourceReviewsByBizReview id s)))
        (fun x => by simp only [setBizDecision_id]) s.bizReviews, h']
    rfl
  · refine ⟨setBizDecision id (bizFinalDecision (listResourceReviewsByBizReview id s)) br, ?_⟩
    rw [aggregateBizDecisionS_eq_neg id s hc]
    unfold getBizReview
    show findRow (fun br => br.id == id)
        (List.map (setBizDecision id (bizFinalDecision (listResourceReviewsByBizReview id s)))
          s.bizReviews) = _
    rw [findRow_map (fun br => br.id == id)
        (setBizDecision id (bizFinalDecision (listResourceReviewsByBizReview id s)))
        (fun x => by simp only [setBizDecision_id]) s.bizReviews, h']
    rfl

theorem processAsyncCompletion_eq_ok (task : ProviderTask) (result : ReviewResult)
    (t : StoreState) (rr : ResourceReview) (br : BizReview)
    (hrr : getResourceReview task.resourceReviewID t = some rr)
    (hbr : getBizReview rr.bizReviewID (updateResourceOutcome task.resourceReviewID
        ⟨result.decision, "", "", result.reasons, 0⟩ t) = some br) :
    processAsyncCompletion task result t =
      Except.ok (aggregateBizDecisionS rr.bizReviewID
        (updateResourceOutcome task.resourceReviewID
          ⟨result.decision, "", "", result.reasons, 0⟩ t)) := by
  unfold processAsyncCompletion
  rw [hrr]
  show (match getBizReview rr.bizReviewID (updateResourceOutcome task.resourceReviewID
        ⟨result.decision, "", "", result.reasons, 0⟩ t) with
    | none => Except.error ClientErr.taskNotFound
    | some _ => Except.ok (aggregateBizDecisionS rr.bizReviewID
        (updateResourceOutcome task.resourceReviewID
          ⟨result.decision, "", "", result.reasons, 0⟩ t))) = _
  rw [hbr]

/-- C7: running the async-completion sequence (UpdateProviderTaskResult
followed by processAsyncCompletion) a second time with the same provider
task and the same result is a harmless no-op: it succeeds again and
leaves the store exactly in the state the first run produced. -/
theorem completeTask_idempotent (task : ProviderTask) (result : ReviewResult)
    (s s' : StoreState) (h : completeTask task result s = Except.ok s') :
    completeTask task result s' = Except.ok s' := by
  unfold completeTask processAsyncCompletion at h
  split at h
  · exact Except.noConfusion h
  · rename_i rr hrr
    dsimp only at h
    split at h
    · exact Except.noConfusion h
    · rename_i br hbr
      injection h with hs'
      subst hs'
      have hA : updateProviderTaskResult task.id true (some result)
          (aggregateBizDecisionS rr.bizReviewID
            (updateResourceOutcome task.resourceReviewID
              ⟨result.decision, "", "", result.reasons, 0⟩
              (updateProviderTaskResult task.id true (some result) s))) =
          aggregateBizDecisionS rr.bizReviewID
            (updateResourceOutcome task.resourceReviewID
              ⟨result.decision, "", "", result.reasons, 0⟩
              (updateProviderTaskResult task.id true (some result) s)) := by
        refine updateProviderTaskResult_fix task.id true (some result) _ ?_
        rw [aggregate_providerTasks]
        show List.map (setTaskResult task.id true (some result))
            (List.map (setTaskResult task.id true (some result)) s.providerTasks) =
          List.map (setTaskResult task.id true (some result)) s.providerTasks
        exact map_idem_list _ (setTaskResult_idem task.id true (some result)) s.providerTasks
      have hB : updateResourceOutcome task.resourceReviewID
          ⟨result.decision, "", "", result.reasons, 0⟩
          (aggregateBizDecisionS rr.bizReviewID
            (updateResourceOutcome task.resourceReviewID
              ⟨result.decision, "", "", result.reasons, 0⟩
              (updateProviderTaskResult task.id true (some result) s))) =
          aggregateBizDecisionS rr.bizReviewID
            (updateResourceOutcome task.resourceReviewID
              ⟨result.decision, "", "", result.reasons, 0⟩
              (updateProviderTaskResult task.id true (some result) s)) := by
        refine updateResourceOutcome_fix task.resourceReviewID _ _ ?_
        rw [aggregate_resourceReviews]
        show List.map (setResourceOutcome task.resourceReviewID
              ⟨result.decision, "", "", result.reasons, 0⟩)
            (List.map (setResourceOutcome task.resourceReviewID
              ⟨result.decision, "", "", result.reasons, 0⟩) s.resourceReviews) =
          List.map (setResourceOutcome task.resourceReviewID
            ⟨result.decision, "", "", result.reasons, 0⟩) s.resourceReviews
        exact map_idem_list _
          (setResourceOutcome_idem task.resourceReviewID
            ⟨result.decision, "", "", result.reasons, 0⟩) s.resourceReviews
      have hrr2 : getResourceReview task.resourceReviewID
          (aggregateBizDecisionS rr.bizReviewID
            (updateResourceOutcome task.resourceReviewID
              ⟨result.decision, "", "", result.reasons, 0⟩
              (updateProviderTaskResult task.id true (some result) s))) =
          some (setResourceOutcome task.resourceReviewID
            ⟨result.decision, "", "", result.reasons, 0⟩ rr) := by
        unfold getResourceReview
        rw [aggregate_resourceReviews]
        show findRow (fun rr => rr.id == task.resourceReviewID)
            (List.map (setResourceOutcome task.resourceReviewID
              ⟨result.decision, "", "", result.reasons, 0⟩) s.resourceReviews) = _
        rw [findRow_map (fun rr => rr.id == task.resourceReviewID)
            (setResourceOutcome task.resourceReviewID
              ⟨result.decision, "", "", result.reasons, 0⟩)
            (fun x => by simp only [setResourceOutcome_id]) s.resourceReviews]
        have h' : findRow (fun rr => rr.id == task.resourceReviewID) s.resourceReviews =
            some rr := hrr
        rw [h']
        rfl
      obtain ⟨br2, hbr2⟩ := getBizReview_aggregate rr.bizReviewID
        (updateResourceOutcome task.resourceReviewID
          ⟨result.decision, "", "", result.reasons, 0⟩
          (updateProviderTaskResult task.id true (some result) s)) br hbr
      have hbr2' : getBizReview
          (setResourceOutcome task.resourceReviewID
            ⟨result.decision, "", "", result.reasons, 0⟩ rr).bizReviewID
          (updateResourceOutcome task.resourceReviewID
            ⟨result.decision, "", "", result.reasons, 0⟩
            (aggregateBizDecisionS rr.bizReviewID
              (updateResourceOutcome task.resourceReviewID
                ⟨result.decision, "", "", result.reasons, 0⟩
                (updateProviderTaskResult task.id true (some result) s)))) = some br2 := by
        rw [setResourceOutcome_bizReviewID, hB]
        exact hbr2
      unfold completeTask
      rw [hA, processAsyncCompletion_eq_ok task result _ _ br2 hrr2 hbr2',
        setResourceOutcome_bizReviewID, hB, aggregate_idem]

theorem completeTask_idempotent_witness :
    ∃ s', completeTask sampleTask sampleReviewResult sampleStore = Except.ok s' ∧
      completeTask sampleTask sampleReviewResult s' = Except.ok s' := by
  refine ⟨_, rfl, ?_⟩
  exact completeTask_idempotent sampleTask sampleReviewResult sampleStore _ rfl

theorem createProviderTasks_bindings (opts : ClientOpts) (id : Nat)
    (pr : PipelineResult) (s : StoreState) :
    (createProviderTasks opts id pr s).bindings = s.bindings := by
  unfold createProviderTasks
  by_cases h : pr.secondaryTaskID ≠ ""
  · rw [if_pos h]
    rfl
  · rw [if_neg h]
    rfl

theorem checkDedup_hit (biz : BizContext) (r : Resource) (s : StoreState) (b : CensorBinding)
    (hb : getBinding biz.bizType biz.bizID biz.field s = some b)
    (hch : (b.contentHash == r.contentHash) = true)
    (hdec : decide (b.decision ≠ Decision.pending) = true) :
    checkDedup biz r s = some ⟨b.reviewID, 0, "", ResourceType.text, "", [], "", b.decision,
      some ⟨b.decision, b.replacePolicy, b.replaceValue, [], 0⟩⟩ := by
  unfold checkDedup
  rw [hb]
  show (if (b.contentHash == r.contentHash && decide (b.decision ≠ Decision.pending)) = true then
      some (⟨b.reviewID, 0, "", ResourceType.text, "", [], "", b.decision,
        some ⟨b.decision, b.replacePolicy, b.replaceValue, [], 0⟩⟩ : ResourceReview)
    else none) = some (⟨b.reviewID, 0, "", ResourceType.text, "", [], "", b.decision,
      some ⟨b.decision, b.replacePolicy, b.replaceValue, [], 0⟩⟩ : ResourceReview)
  rw [hch, hdec]
  rfl

theorem submitResource_dedup_hit (env : ClientEnv) (biz : BizContext) (bizReviewID : Nat)
    (acc : SubmitResultE × StoreState) (r : Resource) (existing : ResourceReview)
    (hhash : (r.contentHash == "") = false)
    (hded : env.opts.enableDedup = true)
    (hchk : checkDedup biz r acc.2 = some existing) :
    submitResource env biz bizReviewID acc r =
      ({ acc.1 with
          resourceReviewIDs := setAssoc acc.1.resourceReviewIDs r.resourceID existing.id,
          immediateResults := setAssoc acc.1.immediateResults r.resourceID
            (parseOutcome existing.outcome) },
        acc.2) := by
  unfold submitResource
  simp only [hhash, Bool.false_eq_true, if_false, hded, if_true, hchk]

theorem submitResource_dedup_miss_exec_sync (env : ClientEnv) (biz : BizContext)
    (bizReviewID : Nat) (acc : SubmitResultE × StoreState) (r : Resource)
    (pr : PipelineResult) (o : FinalOutcome)
    (hhash : (r.contentHash == "") = false)
    (hded : env.opts.enableDedup = true)
    (hchk : checkDedup biz r acc.2 = none)
    (hexec : env.exec r = Except.ok pr)
    (hm : pr.mode = "sync") (hf : pr.finalOutcome = some o) :
    submitResource env biz bizReviewID acc r =
      ({ acc.1 with
          resourceReviewIDs := setAssoc acc.1.resourceReviewIDs r.resourceID acc.2.nextID,
          immediateResults := setAssoc acc.1.immediateResults r.resourceID o },
        if o.decision = Decision.block ∨ o.decision = Decision.review then
          (handleViolation biz r o
            (updateResourceOutcome acc.2.nextID o
              (createProviderTasks env.opts acc.2.nextID pr
                (createResourceReview bizReviewID r acc.2).2))).2
        else
          updateResourceOutcome acc.2.nextID o
            (createProviderTasks env.opts acc.2.nextID pr
              (createResourceReview bizReviewID r acc.2).2)) := by
  unfold submitResource
  simp only [hhash, Bool.false_eq_true, if_false, hded, if_true, hchk, hexec, hm, hf,
    beq_self_eq_true]
  rfl

theorem handleViolation_no_binding (biz : BizContext) (r : Resource) (outcome : FinalOutcome)
    (s : StoreState)
    (hb : getBinding biz.bizType biz.bizID biz.field
        (saveViolationSnapshot biz r outcome s).2 = none) :
    handleViolation biz r outcome s =
      ((saveViolationSnapshot biz r outcome s).1,
        upsertBinding (newBinding biz r outcome (saveViolationSnapshot biz r outcome s).1)
          (saveViolationSnapshot biz r outcome s).2) := by
  unfold handleViolation
  rw [hb]

theorem upsertBinding_eval_append (b : CensorBinding) (s : StoreState)
    (hbind : s.bindings = []) (hid : (b.id == 0) = true) :
    upsertBinding b s =
      { s with bindings := [{ b with id := s.nextID }], nextID := s.nextID + 1 } := by
  unfold upsertBinding
  have hnot : ¬ s.bindings.any (bindingKeyIs b.bizType b.bizID b.field) = true := by
    rw [hbind]
    exact Bool.false_ne_true
  rw [if_neg hnot, if_pos hid, hbind]
  rfl

theorem getBinding_single (bizType bizID field : String) (b : CensorBinding) (s : StoreState)
    (hbind : s.bindings = [b]) (hk : bindingKeyIs bizType bizID field b = true) :
    getBinding bizType bizID field s = some b := by
  unfold getBinding
  rw [hbind]
  unfold findRow
  rw [if_pos hk]

theorem submit_dedup_hit_general (env : ClientEnv) (biz : BizContext) (r : Resource)
    (t : StoreState) (b : CensorBinding)
    (hded : env.opts.enableDedup = true)
    (hh : (r.contentHash == "") = false)
    (hb : getBinding biz.bizType biz.bizID biz.field t = some b)
    (hch : (b.contentHash == r.contentHash) = true)
    (hdec : decide (b.decision ≠ Decision.pending) = true) :
    ∃ res2 s2, Submit env ⟨biz, [r], false⟩ t = Except.ok (res2, s2) ∧
      s2.providerTasks = t.providerTasks ∧
      s2.resourceReviews = t.resourceReviews ∧
      lookupAssoc res2.immediateResults r.resourceID =
        some ⟨b.decision, b.replacePolicy, b.replaceValue, [], 0⟩ := by
  have h1 : Submit env ⟨biz, [r], false⟩ t =
      Except.ok
        ((submitResource env biz (createBizReview biz t).1
            (⟨(createBizReview biz t).1, [], [], false⟩,
              updateBizStatus (createBizReview biz t).1 ReviewStatus.running
                (createBizReview biz t).2) r).1,
          aggregateBizDecisionS (createBizReview biz t).1
            (submitResource env biz (createBizReview biz t).1
              (⟨(createBizReview biz t).1, [], [], false⟩,
                updateBizStatus (createBizReview biz t).1 ReviewStatus.running
                  (createBizReview biz t).2) r).2) := rfl
  have hb2 : getBinding biz.bizType biz.bizID biz.field
      (updateBizStatus (createBizReview biz t).1 ReviewStatus.running
        (createBizReview biz t).2) = some b := hb
  rw [submitResource_dedup_hit env biz (createBizReview biz t).1
      (⟨(createBizReview biz t).1, [], [], false⟩,
        updateBizStatus (createBizReview biz t).1 ReviewStatus.running
          (createBizReview biz t).2) r
      ⟨b.reviewID, 0, "", ResourceType.text, "", [], "", b.decision,
        some ⟨b.decision, b.replacePolicy, b.replaceValue, [], 0⟩⟩ hh hded
      (checkDedup_hit biz r
        (updateBizStatus (createBizReview biz t).1 ReviewStatus.running
          (createBizReview biz t).2) b hb2 hch hdec)] at h1
  refine ⟨_, _, h1, ?_, ?_, ?_⟩
  · rw [aggregate_providerTasks]
    rfl
  · rw [aggregate_resourceReviews]
    rfl
  · exact lookupAssoc_setAssoc_self _ r.resourceID _

/-- C1 (amended): with dedup enabled and a first Submit call whose
synchronous outcome is block or review, a second Submit call for the
same (bizType, bizID, field) context and the same content hash creates
no new ProviderTask and no new ResourceReview, and returns the outcome
rebuilt from the stored binding (decision, replace policy, and replace
value of the first outcome, with reasons emptied and risk level
zeroed). -/
theorem dedup_blocking_submit_amended (env : ClientEnv) (biz : BizContext) (r : Resource)
    (pr : PipelineResult) (o : FinalOutcome)
    (hded : env.opts.enableDedup = true)
    (hh : (r.contentHash == "") = false)
    (hexec : env.exec r = Except.ok pr)
    (hm : pr.mode = "sync") (hf : pr.finalOutcome = some o)
    (hd : o.decision = Decision.block ∨ o.decision = Decision.review) :
    ∃ res1 s1 res2 s2,
      Submit env ⟨biz, [r], false⟩ ⟨[], [], [], [], [], [], 1⟩ = Except.ok (res1, s1) ∧
      Submit env ⟨biz, [r], false⟩ s1 = Except.ok (res2, s2) ∧
      lookupAssoc res1.immediateResults r.resourceID = some o ∧
      s2.providerTasks = s1.providerTasks ∧
      s2.resourceReviews = s1.resourceReviews ∧
      lookupAssoc res2.immediateResults r.resourceID =
        some ⟨o.decision, o.replacePolicy, o.replaceValue, [], 0⟩ := by
  have h0 : Submit env ⟨biz, [r], false⟩ ⟨[], [], [], [], [], [], 1⟩ =
      Except.ok ((⟨1, setAssoc [] r.resourceID 2, setAssoc [] r.resourceID o, false⟩ :
          SubmitResultE),
        aggregateBizDecisionS 1 (handleViolation biz r o
          (updateResourceOutcome 2 o (createProviderTasks env.opts 2 pr
        (createResourceReview 1 r ⟨[⟨1, biz.bizType, biz.bizID, biz.field, Decision.pending,
            ReviewStatus.running⟩], [], [], [], [], [], 2⟩).2))).2) := by
    have ha : Submit env ⟨biz, [r], false⟩ ⟨[], [], [], [], [], [], 1⟩ =
        Except.ok ((submitResource env biz 1 (⟨1, [], [], false⟩,
            ⟨[⟨1, biz.bizType, biz.bizID, biz.field, Decision.pending,
            ReviewStatus.running⟩], [], [], [], [], [], 2⟩) r).1,
          aggregateBizDecisionS 1 (submitResource env biz 1 (⟨1, [], [], false⟩,
            ⟨[⟨1, biz.bizType, biz.bizID, biz.field, Decision.pending,
            ReviewStatus.running⟩], [], [], [], [], [], 2⟩) r).2) := rfl
    rw [submitResource_dedup_miss_exec_sync env biz 1 (⟨1, [], [], false⟩,
        ⟨[⟨1, biz.bizType, biz.bizID, biz.field, Decision.pending,
            ReviewStatus.running⟩], [], [], [], [], [], 2⟩) r pr o hh hded rfl hexec hm hf] at ha
    rw [if_pos hd] at ha
    exact ha
  have hgb : getBinding biz.bizType biz.bizID biz.field
      (saveViolationSnapshot biz r o (updateResourceOutcome 2 o (createProviderTasks env.opts 2 pr
        (createResourceReview 1 r ⟨[⟨1, biz.bizType, biz.bizID, biz.field, Decision.pending,
            ReviewStatus.running⟩], [], [], [], [], [], 2⟩).2))).2 = none := by
    show findRow (bindingKeyIs biz.bizType biz.bizID biz.field)
      (createProviderTasks env.opts 2 pr (createResourceReview 1 r
        ⟨[⟨1, biz.bizType, biz.bizID, biz.field, Decision.pending,
            ReviewStatus.running⟩], [], [], [], [], [], 2⟩).2).bindings = none
    rw [createProviderTasks_bindings]
    rfl
  have hbind : (aggregateBizDecisionS 1 (handleViolation biz r o
      (updateResourceOutcome 2 o (createProviderTasks env.opts 2 pr
        (createResourceReview 1 r ⟨[⟨1, biz.bizType, biz.bizID, biz.field, Decision.pending,
            ReviewStatus.running⟩], [], [], [], [], [], 2⟩).2))).2).bindings =
      [{ newBinding biz r o (updateResourceOutcome 2 o (createProviderTasks env.opts 2 pr
        (createResourceReview 1 r ⟨[⟨1, biz.bizType, biz.bizID, biz.field, Decision.pending,
            ReviewStatus.running⟩], [], [], [], [], [], 2⟩).2)).nextID with
          id := (updateResourceOutcome 2 o (createProviderTasks env.opts 2 pr
        (createResourceReview 1 r ⟨[⟨1, biz.bizType, biz.bizID, biz.field, Decision.pending,
            ReviewStatus.running⟩], [], [], [], [], [], 2⟩).2)).nextID + 1 }] := by
    rw [aggregate_bindings, handleViolation_no_binding biz r o (updateResourceOutcome 2 o (createProviderTasks env.opts 2 pr
        (createResourceReview 1 r ⟨[⟨1, biz.bizType, biz.bizID, biz.field, Decision.pending,
            ReviewStatus.running⟩], [], [], [], [], [], 2⟩).2)) hgb]
    show (upsertBinding (newBinding biz r o (saveViolationSnapshot biz r o
        (updateResourceOutcome 2 o (createProviderTasks env.opts 2 pr
        (createResourceReview 1 r ⟨[⟨1, biz.bizType, biz.bizID, biz.field, Decision.pending,
            ReviewStatus.running⟩], [], [], [], [], [], 2⟩).2))).1)
      (saveViolationSnapshot biz r o (updateResourceOutcome 2 o (createProviderTasks env.opts 2 pr
        (createResourceReview 1 r ⟨[⟨1, biz.bizType, biz.bizID, biz.field, Decision.pending,
            ReviewStatus.running⟩], [], [], [], [], [], 2⟩).2))).2).bindings = _
    rw [upsertBinding_eval_append (newBinding biz r o (saveViolationSnapshot biz r o
        (updateResourceOutcome 2 o (createProviderTasks env.opts 2 pr
        (createResourceReview 1 r ⟨[⟨1, biz.bizType, biz.bizID, biz.field, Decision.pending,
            ReviewStatus.running⟩], [], [], [], [], [], 2⟩).2))).1)
      (saveViolationSnapshot biz r o (updateResourceOutcome 2 o (createProviderTasks env.opts 2 pr
        (createResourceReview 1 r ⟨[⟨1, biz.bizType, biz.bizID, biz.field, Decision.pending,
            ReviewStatus.running⟩], [], [], [], [], [], 2⟩).2))).2
      (by
        show (createProviderTasks env.opts 2 pr (createResourceReview 1 r
          ⟨[⟨1, biz.bizType, biz.bizID, biz.field, Decision.pending,
            ReviewStatus.running⟩], [], [], [], [], [], 2⟩).2).bindings = []
        rw [createProviderTasks_bindings]
        rfl) rfl]
    rfl
  have hb2 : getBinding biz.bizType biz.bizID biz.field
      (aggregateBizDecisionS 1 (handleViolation biz r o
        (updateResourceOutcome 2 o (createProviderTasks env.opts 2 pr
        (createResourceReview 1 r ⟨[⟨1, biz.bizType, biz.bizID, biz.field, Decision.pending,
            ReviewStatus.running⟩], [], [], [], [], [], 2⟩).2))).2) =
      some { newBinding biz r o (updateResourceOutcome 2 o (createProviderTasks env.opts 2 pr
        (createResourceReview 1 r ⟨[⟨1, biz.bizType, biz.bizID, biz.field, Decision.pending,
            ReviewStatus.running⟩], [], [], [], [], [], 2⟩).2)).nextID with
          id := (updateResourceOutcome 2 o (createProviderTasks env.opts 2 pr
        (createResourceReview 1 r ⟨[⟨1, biz.bizType, biz.bizID, biz.field, Decision.pending,
            ReviewStatus.running⟩], [], [], [], [], [], 2⟩).2)).nextID + 1 } := by
    refine getBinding_single biz.bizType biz.bizID biz.field _ _ hbind ?_
    show ((biz.bizType == biz.bizType) && (biz.bizID == biz.bizID) &&
      (biz.field == biz.field)) = true
    simp
  obtain ⟨res2, s2, hsub2, hpt, hrrw, hlook⟩ :=
    submit_dedup_hit_general env biz r
      (aggregateBizDecisionS 1 (handleViolation biz r o
        (updateResourceOutcome 2 o (createProviderTasks env.opts 2 pr
        (createResourceReview 1 r ⟨[⟨1, biz.bizType, biz.bizID, biz.field, Decision.pending,
            ReviewStatus.running⟩], [], [], [], [], [], 2⟩).2))).2)
      { newBinding biz r o (updateResourceOutcome 2 o (createProviderTasks env.opts 2 pr
        (createResourceReview 1 r ⟨[⟨1, biz.bizType, biz.bizID, biz.field, Decision.pending,
            ReviewStatus.running⟩], [], [], [], [], [], 2⟩).2)).nextID with
          id := (updateResourceOutcome 2 o (createProviderTasks env.opts 2 pr
        (createResourceReview 1 r ⟨[⟨1, biz.bizType, biz.bizID, biz.field, Decision.pending,
            ReviewStatus.running⟩], [], [], [], [], [], 2⟩).2)).nextID + 1 }
      hded hh hb2 (beq_self_eq_true r.contentHash)
      (by
        show decide (o.decision ≠ Decision.pending) = true
        rcases hd with h | h <;> rw [h] <;> decide)
  exact ⟨_, _, res2, s2, h0, hsub2, lookupAssoc_setAssoc_self [] r.resourceID o,
    hpt, hrrw, hlook⟩

/-- C1 counterexample: dedup is enabled, both Submit calls use the same
(bizType, bizID, field) context and the same content hash, and the
first call records the non-pending decision pass — yet the second call
still creates a new ProviderTask (the task count grows from 1 to 2),
because a CensorBinding is only written for block or review outcomes
and a pass outcome leaves nothing for checkDedup to find. -/
theorem dedup_pass_counterexample :
    dedupPassEnv.opts.enableDedup = true ∧
    (∃ res1 s1 res2 s2,
      Submit dedupPassEnv ⟨⟨"bt", "b1", "f"⟩, [dedupPassResource], false⟩
          ⟨[], [], [], [], [], [], 1⟩ = Except.ok (res1, s1) ∧
      Submit dedupPassEnv ⟨⟨"bt", "b1", "f"⟩, [dedupPassResource], false⟩ s1 =
        Except.ok (res2, s2) ∧
      lookupAssoc res1.immediateResults dedupPassResource.resourceID =
        some ⟨Decision.pass, "", "", [], 0⟩ ∧
      s1.providerTasks.length = 1 ∧
      s2.providerTasks.length = 2) :=
  ⟨rfl, _, _, _, _, rfl, rfl, rfl, rfl, rfl⟩

theorem dedup_blocking_submit_amended_witness :
    dedupBlockEnv.opts.enableDedup = true ∧
    (dedupPassResource.contentHash == "") = false ∧
    dedupBlockEnv.exec dedupPassResource = Except.ok dedupBlockPr ∧
    dedupBlockPr.mode = "sync" ∧
    dedupBlockPr.finalOutcome = some dedupBlockOutcome ∧
    (dedupBlockOutcome.decision = Decision.block ∨
      dedupBlockOutcome.decision = Decision.review) ∧
    (∃ res1 s1 res2 s2,
      Submit dedupBlockEnv ⟨⟨"bt", "b1", "f"⟩, [dedupPassResource], false⟩
          ⟨[], [], [], [], [], [], 1⟩ = Except.ok (res1, s1) ∧
      Submit dedupBlockEnv ⟨⟨"bt", "b1", "f"⟩, [dedupPassResource], false⟩ s1 =
        Except.ok (res2, s2) ∧
      lookupAssoc res1.immediateResults dedupPassResource.resourceID =
        some dedupBlockOutcome ∧
      s2.providerTasks = s1.providerTasks ∧
      s2.resourceReviews = s1.resourceReviews ∧
      lookupAssoc res2.immediateResults dedupPassResource.resourceID =
        some ⟨dedupBlockOutcome.decision, dedupBlockOutcome.replacePolicy,
          dedupBlockOutcome.replaceValue, [], 0⟩) :=
  ⟨rfl, rfl, rfl, rfl, rfl, Or.inl rfl,
    dedup_blocking_submit_amended dedupBlockEnv ⟨"bt", "b1", "f"⟩ dedupPassResource
      dedupBlockPr dedupBlockOutcome rfl rfl rfl rfl rfl (Or.inl rfl)⟩

end Censor
